import Mathlib

/-!
Verification of the marquee animation library (color resolver, phase engine,
timeline sequencer, flip-cascade renderer) against its natural-language
specification.  JavaScript numbers are modelled as exact rationals (no
irrational operation occurs in the modelled code paths), JS strings as Lean
strings, `undefined`/`null` as `Option`, and thrown exceptions as an explicit
error channel.
-/

/-! ## JavaScript value helpers

JS `a || b` on values whose falsy cases matter here: `undefined`, `null`,
`''`, and `0`. -/

/-- JS `a || b` for an optional string: `undefined` and `''` are falsy. -/
def jsOrStr (a : Option String) (b : String) : String :=
  match a with
  | some s => if s = "" then b else s
  | none => b

/-- JS `a || b` for an optional string result that may stay `undefined`. -/
def jsOrOptStr (a : Option String) (b : Option String) : Option String :=
  match a with
  | some s => if s = "" then b else some s
  | none => b

/-- JS `a || b` for an optional number: `undefined` and `0` are falsy. -/
def jsOrQ (a : Option ℚ) (b : ℚ) : ℚ :=
  match a with
  | some q => if q = 0 then b else q
  | none => b

/-- JS `a || b` for an optional natural number: `undefined` and `0` are falsy. -/
def jsOrNat (a : Option ℕ) (b : ℕ) : ℕ :=
  match a with
  | some n => if n = 0 then b else n
  | none => b

/-! ## Hex parsing (`parseInt(str, 16)`)

`snapToPresetColor` in `presets.js` parses two-character slices of color
strings with `parseInt(s, 16)`, whose result is `NaN` when no hex digit can
be consumed.  `NaN` is modelled as `none`. -/

/-- Value of a single hexadecimal digit character. -/
def hexDigitVal (c : Char) : Option ℕ :=
  let n := c.toNat
  if 48 ≤ n ∧ n ≤ 57 then some (n - 48)
  else if 97 ≤ n ∧ n ≤ 102 then some (n - 87)
  else if 65 ≤ n ∧ n ≤ 70 then some (n - 55)
  else none

/-- Whitespace characters stripped by `parseInt`. -/
def isSpaceChar (c : Char) : Bool :=
  c = ' ' ∨ c = '\t' ∨ c = '\n' ∨ c = '\r'

/-- Accumulate the maximal leading run of hex digits; `none` when the run is
empty (the `NaN` case). -/
def hexRun : List Char → Option ℕ → Option ℕ
  | [], acc => acc
  | c :: cs, acc =>
    match hexDigitVal c with
    | some v => hexRun cs (some ((acc.getD 0) * 16 + v))
    | none => acc

/-- JS `parseInt(s, 16)`: skip whitespace, optional sign, optional `0x`/`0X`
prefix, then the maximal run of hex digits; `NaN` (`none`) if the run is
empty. -/
def jsParseIntHex (s : String) : Option ℤ :=
  let cs := s.toList.dropWhile isSpaceChar
  let signAndRest : ℤ × List Char :=
    match cs with
    | '-' :: r => (-1, r)
    | '+' :: r => (1, r)
    | _ => (1, cs)
  let body :=
    match signAndRest.2 with
    | '0' :: 'x' :: r => r
    | '0' :: 'X' :: r => r
    | r => r
  (hexRun body none).map (fun v => signAndRest.1 * (v : ℤ))

/-- JS `String.prototype.slice(a, b)` on ASCII strings. -/
def strSlice (s : String) (a b : ℕ) : String :=
  String.mk ((s.toList.drop a).take (b - a))

/-! ## `presets.js` : `snapToPresetColor` -/

/-- The three channel parses `parseInt(hexColor.slice(1,3|3,5|5,7), 16)`. -/
def parseRGB (s : String) : Option ℤ × Option ℤ × Option ℤ :=
  (jsParseIntHex (strSlice s 1 3),
   jsParseIntHex (strSlice s 3 5),
   jsParseIntHex (strSlice s 5 7))

/-- Squared RGB distance between parsed channels and a palette entry; `none`
models a `NaN` distance (some channel failed to parse). -/
def hexDist (r g b : Option ℤ) (pc : String) : Option ℤ :=
  match r, g, b, parseRGB pc with
  | some r, some g, some b, (some pr, some pg, some pb) =>
    some ((r - pr) ^ 2 + (g - pg) ^ 2 + (b - pb) ^ 2)
  | _, _, _, _ => none

/-- The `for (const pc of presetColors)` loop of `snapToPresetColor`.
`bestDist = none` models the initial `Infinity`; a `NaN` distance (`none`)
never satisfies `dist < bestDist`. -/
def snapGo (r g b : Option ℤ) : List String → String → Option ℤ → String
  | [], best, _ => best
  | pc :: rest, best, bestDist =>
    match hexDist r g b pc, bestDist with
    | some d, none => snapGo r g b rest pc (some d)
    | some d, some bd =>
      if d < bd then snapGo r g b rest pc (some d) else snapGo r g b rest best (some bd)
    | none, bd => snapGo r g b rest best bd

/-- `snapToPresetColor(hexColor, presetColors)` from `presets.js`. -/
def snapToPresetColor (hexColor : String) (presetColors : List String) : String :=
  match presetColors with
  | [] => hexColor
  | pc0 :: _ =>
    let rgb := parseRGB hexColor
    snapGo rgb.1 rgb.2.1 rgb.2.2 presetColors pc0 none

/-! ## `colors.js` -/

/-- `normalizeColor`'s 6-digit-hex test `/^#[0-9a-fA-F]{6}$/`. -/
def isHex6 (s : String) : Bool :=
  match s.toList with
  | ['#', a, b, c, d, e, f] =>
    (hexDigitVal a).isSome ∧ (hexDigitVal b).isSome ∧ (hexDigitVal c).isSome ∧
    (hexDigitVal d).isSome ∧ (hexDigitVal e).isSome ∧ (hexDigitVal f).isSome
  | _ => false

/-- `normalizeColor`'s 3-digit-hex test `/^#[0-9a-fA-F]{3}$/`. -/
def isHex3 (s : String) : Bool :=
  match s.toList with
  | ['#', a, b, c] =>
    (hexDigitVal a).isSome ∧ (hexDigitVal b).isSome ∧ (hexDigitVal c).isSome
  | _ => false

/-- ASCII lower-casing of one character, as `toLowerCase` acts on the ASCII
color strings handled by `normalizeColor`. -/
def asciiLower (c : Char) : Char :=
  if 'A' ≤ c ∧ c ≤ 'Z' then Char.ofNat (c.toNat + 32) else c

/-- ASCII `String.prototype.toLowerCase()`. -/
def strToLower (s : String) : String :=
  String.mk (s.toList.map asciiLower)

/-- The basic named-color table of `normalizeColor`. -/
def namedColor (s : String) : Option String :=
  match s with
  | "red" => some "#ff0000" | "green" => some "#00ff00" | "blue" => some "#0000ff"
  | "yellow" => some "#ffff00" | "white" => some "#ffffff" | "black" => some "#000000"
  | "orange" => some "#ff8800" | "purple" => some "#800080" | "cyan" => some "#00ffff"
  | "magenta" => some "#ff00ff" | "amber" => some "#ffaa00" | "lime" => some "#00cc00"
  | _ => none

/-- `normalizeColor(color)` from `colors.js`; `none` models a missing
(`undefined`/`null`) argument, and the empty string is likewise falsy. -/
def normalizeColor (color : Option String) : String :=
  match color with
  | none => "#ff3300"
  | some c =>
    if c = "" then "#ff3300"
    else if isHex6 c then strToLower c
    else if isHex3 c then
      strToLower (String.mk ['#', c.toList.getD 1 ' ', c.toList.getD 1 ' ',
                             c.toList.getD 2 ' ', c.toList.getD 2 ' ',
                             c.toList.getD 3 ' ', c.toList.getD 3 ' '])
    else
      match namedColor (strToLower c) with
      | some h => h
      | none => c

/-- A color specification: constant string, per-character array, per-character
function, or absent.  The function form receives `(index, char, progress)`. -/
inductive ColorConfig where
  | noSpec : ColorConfig
  | str : String → ColorConfig
  | arr : List String → ColorConfig
  | fn : (ℕ → Char → ℚ → String) → ColorConfig

/-- The color entries produced before palette snapping.  An entry is
`none` when the JS code would produce `undefined`
(`colorConfig[i % colorConfig.length]` on an empty array). -/
def rawColors (colorConfig : ColorConfig) (text : List Char) (progress : ℚ) :
    List (Option String) :=
  match colorConfig with
  | .fn f => (List.range text.length).map fun i => some (f i (text.getD i ' ') progress)
  | .arr a => (List.range text.length).map fun i => a.get? (i % a.length)
  | .str s => List.replicate text.length (some (jsOrStr (some s) "#ff3300"))
  | .noSpec => List.replicate text.length (some "#ff3300")

/-- `resolveColors(colorConfig, text, progress, presetColors)` from
`colors.js`.  An empty `presetColors` list stands for both the `null` and the
empty-array cases (both fail the `presetColors && presetColors.length > 0`
guard). -/
def resolveColors (colorConfig : ColorConfig) (text : List Char) (progress : ℚ)
    (presetColors : List String) : List (Option String) :=
  let colors := rawColors colorConfig text progress
  if presetColors.length > 0 then
    colors.map fun c => some (snapToPresetColor (normalizeColor c) presetColors)
  else colors

/-! ## Palette snapping: distances and the argmin property -/

/-- The distance `snapToPresetColor` computes between its argument and a
palette entry (`none` = `NaN`). -/
def distToOpt (c pc : String) : Option ℤ :=
  hexDist (parseRGB c).1 (parseRGB c).2.1 (parseRGB c).2.2 pc

lemma hexDist_nonneg {r g b : Option ℤ} {pc : String} {d : ℤ}
    (h : hexDist r g b pc = some d) : 0 ≤ d := by
  unfold hexDist at h
  rcases hp : parseRGB pc with ⟨pr, pg, pb⟩
  rw [hp] at h
  rcases r with _ | rv <;> rcases g with _ | gv <;> rcases b with _ | bv <;>
    rcases pr with _ | prv <;> rcases pg with _ | pgv <;> rcases pb with _ | pbv <;>
    simp at h
  subst h
  positivity

lemma distToOpt_self {c : String} (h : (distToOpt c c).isSome) :
    distToOpt c c = some 0 := by
  unfold distToOpt hexDist at h ⊢
  rcases hp : parseRGB c with ⟨pr, pg, pb⟩
  simp only [hp] at h ⊢
  rcases pr with _ | prv <;> rcases pg with _ | pgv <;> rcases pb with _ | pbv <;>
    simp at h ⊢

lemma distToOpt_eq_zero {c pc : String} (hsome : (distToOpt c c).isSome)
    (h : distToOpt c pc = some 0) : parseRGB pc = parseRGB c := by
  unfold distToOpt hexDist at hsome h
  rcases hc : parseRGB c with ⟨r, g, b⟩
  rcases hq : parseRGB pc with ⟨pr, pg, pb⟩
  simp only [hc] at hsome h
  simp only [hq] at h
  rcases r with _ | rv <;> rcases g with _ | gv <;> rcases b with _ | bv <;>
    simp at hsome
  rcases pr with _ | prv <;> rcases pg with _ | pgv <;> rcases pb with _ | pbv <;>
    simp at h
  have hr' : prv = rv := by nlinarith [sq_nonneg (rv - prv), sq_nonneg (gv - pgv), sq_nonneg (bv - pbv)]
  have hg' : pgv = gv := by nlinarith [sq_nonneg (rv - prv), sq_nonneg (gv - pgv), sq_nonneg (bv - pbv)]
  have hb' : pbv = bv := by nlinarith [sq_nonneg (rv - prv), sq_nonneg (gv - pgv), sq_nonneg (bv - pbv)]
  rw [hr', hg', hb']

lemma snapGo_min_find (r g b : Option ℤ) :
    ∀ (l : List String) (best : String) (bd : ℤ),
      hexDist r g b best = some bd →
      (∀ pc ∈ l, (hexDist r g b pc).isSome) →
      ∃ dres : ℤ,
        hexDist r g b (snapGo r g b l best (some bd)) = some dres ∧ dres ≤ bd ∧
        (∀ pc ∈ l, ∀ d, hexDist r g b pc = some d → dres ≤ d) ∧
        ((snapGo r g b l best (some bd) = best ∧ dres = bd) ∨
         (dres < bd ∧
          l.find? (fun pc => decide (hexDist r g b pc = some dres)) =
            some (snapGo r g b l best (some bd)))) := by
  intro l
  induction l with
  | nil =>
    intro best bd hbest _
    exact ⟨bd, by simpa [snapGo] using hbest, le_refl bd, by simp, Or.inl ⟨rfl, rfl⟩⟩
  | cons pc rest ih =>
    intro best bd hbest hall
    obtain ⟨dv, hdv⟩ := Option.isSome_iff_exists.mp (hall pc (List.mem_cons_self pc rest))
    have hall' : ∀ p ∈ rest, (hexDist r g b p).isSome :=
      fun p hp => hall p (List.mem_cons_of_mem _ hp)
    by_cases hlt : dv < bd
    · have hres : snapGo r g b (pc :: rest) best (some bd) = snapGo r g b rest pc (some dv) := by
        simp [snapGo, hdv, hlt]
      obtain ⟨dres, h1, h2, h3, h4⟩ := ih pc dv hdv hall'
      refine ⟨dres, by rwa [hres], le_of_lt (lt_of_le_of_lt h2 hlt), ?_, ?_⟩
      · intro p hp d hd
        rcases List.mem_cons.mp hp with hpc | hrest
        · subst hpc; rw [hdv] at hd; exact (Option.some_inj.mp hd) ▸ h2
        · exact h3 p hrest d hd
      · rcases h4 with ⟨heq, hde⟩ | ⟨hd, hfind⟩
        · refine Or.inr ⟨by rw [hde]; exact hlt, ?_⟩
          rw [hres, heq]
          have hfpc : (fun p => decide (hexDist r g b p = some dres)) pc = true := by
            simp [hdv, heq, hde]
          simp only [List.find?, hfpc]
        · refine Or.inr ⟨lt_trans hd hlt, ?_⟩
          rw [hres]
          have hfpc : (fun p => decide (hexDist r g b p = some dres)) pc = false := by
            simp [hdv]; exact fun h => absurd h.symm (ne_of_lt hd)
          simp only [List.find?, hfpc]
          exact hfind
    · have hres : snapGo r g b (pc :: rest) best (some bd) = snapGo r g b rest best (some bd) := by
        simp [snapGo, hdv, hlt]
      obtain ⟨dres, h1, h2, h3, h4⟩ := ih best bd hbest hall'
      refine ⟨dres, by rwa [hres], h2, ?_, ?_⟩
      · intro p hp d hd
        rcases List.mem_cons.mp hp with hpc | hrest
        · subst hpc; rw [hdv] at hd
          exact (Option.some_inj.mp hd) ▸ (le_trans h2 (not_lt.mp hlt))
        · exact h3 p hrest d hd
      · rcases h4 with ⟨heq, hde⟩ | ⟨hd, hfind⟩
        · exact Or.inl ⟨by rw [hres, heq], hde⟩
        · refine Or.inr ⟨hd, ?_⟩
          rw [hres]
          have hfpc : (fun p => decide (hexDist r g b p = some dres)) pc = false := by
            simp [hdv]
            exact fun h => absurd h.symm (ne_of_lt (lt_of_lt_of_le hd (not_lt.mp hlt)))
          simp only [List.find?, hfpc]
          exact hfind

/-- C6 (amended): `snapToPresetColor(c, P)` on a non-empty palette whose
entries (and argument) have parseable channel slices returns an entry at
minimal squared RGB distance, and `find?` locates exactly that entry first
(ties resolved by first occurrence); moreover if `c ∈ P` and no other entry
shares `c`'s parsed RGB triple, the snap returns `c` itself.  (The unamended
claim `snap(c,P) = c` for every `c ∈ P` fails when an earlier entry parses to
the same RGB, e.g. a case variant — see the counterexample.) -/
theorem snapToPresetColor_first_min (c pc0 : String) (rest : List String)
    (hall : ∀ pc ∈ pc0 :: rest, (distToOpt c pc).isSome) :
    ∃ dres : ℤ,
      distToOpt c (snapToPresetColor c (pc0 :: rest)) = some dres ∧
      (∀ pc ∈ pc0 :: rest, ∀ d, distToOpt c pc = some d → dres ≤ d) ∧
      (pc0 :: rest).find? (fun pc => decide (distToOpt c pc = some dres)) =
        some (snapToPresetColor c (pc0 :: rest)) ∧
      (c ∈ pc0 :: rest →
        (∀ pc ∈ pc0 :: rest, parseRGB pc = parseRGB c → pc = c) →
        snapToPresetColor c (pc0 :: rest) = c) := by
  obtain ⟨d0, hd0⟩ := Option.isSome_iff_exists.mp (hall pc0 (List.mem_cons_self pc0 rest))
  have hall' : ∀ p ∈ rest,
      (hexDist (parseRGB c).1 (parseRGB c).2.1 (parseRGB c).2.2 p).isSome :=
    fun p hp => hall p (List.mem_cons_of_mem _ hp)
  have hd0' : hexDist (parseRGB c).1 (parseRGB c).2.1 (parseRGB c).2.2 pc0 = some d0 := hd0
  have hsnap : snapToPresetColor c (pc0 :: rest) =
      snapGo (parseRGB c).1 (parseRGB c).2.1 (parseRGB c).2.2 rest pc0 (some d0) := by
    unfold snapToPresetColor
    simp [snapGo, hd0']
  obtain ⟨dres, h1, h2, h3, h4⟩ :=
    snapGo_min_find (parseRGB c).1 (parseRGB c).2.1 (parseRGB c).2.2 rest pc0 d0 hd0' hall'
  have hmin : ∀ pc ∈ pc0 :: rest, ∀ d, distToOpt c pc = some d → dres ≤ d := by
    intro pc hpc d hd
    rcases List.mem_cons.mp hpc with h0 | hr
    · subst h0
      have hdd : d0 = d := Option.some_inj.mp (hd0'.symm.trans hd)
      exact hdd ▸ h2
    · exact h3 pc hr d hd
  have hfind : (pc0 :: rest).find? (fun pc => decide (distToOpt c pc = some dres)) =
      some (snapToPresetColor c (pc0 :: rest)) := by
    rcases h4 with ⟨heq, hde⟩ | ⟨hlt, hf⟩
    · have hfpc : (fun pc => decide (distToOpt c pc = some dres)) pc0 = true := by
        simp [distToOpt, hd0', hde]
      simp only [List.find?, hfpc]
      rw [hsnap, heq]
    · have hfpc : (fun pc => decide (distToOpt c pc = some dres)) pc0 = false := by
        simp [distToOpt, hd0']
        exact fun h => absurd h.symm (ne_of_lt hlt)
      simp only [List.find?, hfpc]
      rw [hsnap]
      exact hf
  refine ⟨dres, by rw [hsnap]; exact h1, hmin, hfind, ?_⟩
  intro hc hinj
  have hccs : (distToOpt c c).isSome := hall c hc
  have hcc : distToOpt c c = some 0 := distToOpt_self hccs
  have hdle : dres ≤ 0 := hmin c hc 0 hcc
  have hdge : 0 ≤ dres := hexDist_nonneg (hsnap ▸ h1)
  have hdz : dres = 0 := le_antisymm hdle hdge
  have hz : distToOpt c (snapToPresetColor c (pc0 :: rest)) = some 0 := by
    rw [hsnap]; rw [← hdz]; exact h1
  have hmem : snapToPresetColor c (pc0 :: rest) ∈ pc0 :: rest :=
    List.mem_of_find?_eq_some hfind
  exact hinj _ hmem (distToOpt_eq_zero hccs hz)

/-- C6 counterexample: `"#ff0000"` is present in the palette
`["#FF0000", "#ff0000"]` yet `snapToPresetColor` returns the earlier
case-variant `"#FF0000"`, a different string — refuting the unrestricted
idempotence claim `snap(c, P) = c` for every 6-digit hex `c ∈ P`. -/
theorem snapToPresetColor_case_duplicate_cex :
    "#ff0000" ∈ ["#FF0000", "#ff0000"] ∧
    snapToPresetColor "#ff0000" ["#FF0000", "#ff0000"] = "#FF0000" ∧
    "#FF0000" ≠ "#ff0000" := by decide

/-- Witness for C6 at the spec's end-to-end scenario D input: color
`"#0010ee"` against palette `["#ff0000", "#00ff00"]`. -/
theorem snapToPresetColor_first_min_w :
    (∀ pc ∈ ["#ff0000", "#00ff00"], (distToOpt "#0010ee" pc).isSome) ∧
    (∃ dres : ℤ,
      distToOpt "#0010ee" (snapToPresetColor "#0010ee" ["#ff0000", "#00ff00"]) = some dres ∧
      (∀ pc ∈ ["#ff0000", "#00ff00"], ∀ d, distToOpt "#0010ee" pc = some d → dres ≤ d) ∧
      (["#ff0000", "#00ff00"] : List String).find?
          (fun pc => decide (distToOpt "#0010ee" pc = some dres)) =
        some (snapToPresetColor "#0010ee" ["#ff0000", "#00ff00"]) ∧
      ("#0010ee" ∈ ["#ff0000", "#00ff00"] →
        (∀ pc ∈ ["#ff0000", "#00ff00"], parseRGB pc = parseRGB "#0010ee" → pc = "#0010ee") →
        snapToPresetColor "#0010ee" ["#ff0000", "#00ff00"] = "#0010ee")) :=
  ⟨by decide, snapToPresetColor_first_min "#0010ee" "#ff0000" ["#00ff00"] (by decide)⟩

lemma rawColors_length (cfg : ColorConfig) (text : List Char) (p : ℚ) :
    (rawColors cfg text p).length = text.length := by
  cases cfg <;> simp [rawColors]

/-- C7 (amended): `resolveColors` always returns one entry per character of
the text, for every spec form and palette; and with no palette constraint the
array form wraps cyclically: entry `i` is `spec[i % spec.length]`.  (The
unamended claim — cyclic wrap regardless of palette — fails because a
supplied palette snaps each entry; see the counterexample.) -/
theorem resolveColors_shape :
    (∀ (cfg : ColorConfig) (text : List Char) (p : ℚ) (pcs : List String),
      (resolveColors cfg text p pcs).length = text.length) ∧
    (∀ (a : List String) (text : List Char) (p : ℚ) (i : ℕ) (ha : 0 < a.length),
      i < text.length →
      (resolveColors (.arr a) text p []).getD i none =
        some (a.get ⟨i % a.length, Nat.mod_lt i ha⟩)) := by
  constructor
  · intro cfg text p pcs
    unfold resolveColors
    by_cases h : pcs.length > 0 <;> simp [h, rawColors_length]
  · intro a text p i ha hi
    simp only [resolveColors, rawColors]
    norm_num
    rw [List.getElem?_range hi]
    simp [List.getElem?_eq_getElem (Nat.mod_lt i ha)]

/-- Witness for C7: a 2-color array spec on a 3-character text wraps
(`i = 2` reads entry `2 % 2 = 0`), and the length invariant holds under a
palette. -/
theorem resolveColors_shape_w :
    (0 : ℕ) < 2 ∧ (2 : ℕ) < 3 ∧
    (resolveColors (.arr ["#00ff00", "#0000ff"]) ['a', 'b', 'c'] 0 []).getD 2 none =
      some (["#00ff00", "#0000ff"].get ⟨2 % 2, by decide⟩) ∧
    (resolveColors (.str "red") ['x'] 0 ["#ffaa00"]).length = 1 :=
  ⟨by decide, by decide,
   resolveColors_shape.2 ["#00ff00", "#0000ff"] ['a', 'b', 'c'] 0 2 (by decide) (by decide),
   resolveColors_shape.1 (.str "red") ['x'] 0 ["#ffaa00"]⟩

/-- C7 counterexample: with palette `["#ff0000"]` the single-entry array spec
`["#123456"]` resolves position `0` to the snapped `"#ff0000"`, not to
`spec[0 % 1] = "#123456"` as the unrestricted wrap claim states. -/
theorem resolveColors_wrap_palette_cex :
    (resolveColors (.arr ["#123456"]) ['A'] 0 ["#ff0000"]).getD 0 none = some "#ff0000" ∧
    some "#ff0000" ≠ some "#123456" := by decide

lemma snapGo_nan (g b : Option ℤ) :
    ∀ (l : List String) (best : String) (bd : Option ℤ),
      snapGo none g b l best bd = best := by
  intro l
  induction l with
  | nil => intro best bd; rfl
  | cons pc rest ih =>
    intro best bd
    have hnan : hexDist none g b pc = none := rfl
    simp [snapGo, hnan]
    exact ih best bd

/-- C9 (amended): resolving an unparseable (but non-empty, unrecognized)
color string never raises — `resolveColors` is total — but it does not fall
back to the built-in default `#ff3300`: with no palette the string passes
through unchanged to every position, and with a palette every position snaps
deterministically to the first palette entry (all `NaN` distances lose to the
initial best).  Only an absent or empty spec yields `#ff3300`. -/
theorem resolveColors_unparseable (s : String) (text : List Char) (p : ℚ)
    (hne : s ≠ "") (hnorm : normalizeColor (some s) = s)
    (hnan : jsParseIntHex (strSlice s 1 3) = none) :
    resolveColors (.str s) text p [] = List.replicate text.length (some s) ∧
    ∀ (pc0 : String) (rest : List String),
      resolveColors (.str s) text p (pc0 :: rest) =
        List.replicate text.length (some pc0) := by
  constructor
  · simp [resolveColors, rawColors, jsOrStr, hne]
  · intro pc0 rest
    have hsnap : snapToPresetColor s (pc0 :: rest) = pc0 := by
      unfold snapToPresetColor
      simp only []
      rw [show (parseRGB s).1 = none from hnan]
      exact snapGo_nan _ _ (pc0 :: rest) pc0 none
    simp [resolveColors, rawColors, jsOrStr, hne, hnorm, hsnap]

/-- C9 counterexample: the unparseable spec `"not-a-color"` resolves (with no
palette) to itself at every position, not to the built-in default `#ff3300`
as the claim states. -/
theorem resolveColors_unparseable_cex :
    resolveColors (.str "not-a-color") ['A'] 0 [] = [some "not-a-color"] ∧
    some "not-a-color" ≠ some "#ff3300" := by decide

/-- Witness for C9: `"not-a-color"` is fixed by `normalizeColor`, its red
slice parses to `NaN`, and under palette `["#00ff00", "#ff0000"]` both
positions snap to the first entry. -/
theorem resolveColors_unparseable_w :
    normalizeColor (some "not-a-color") = "not-a-color" ∧
    jsParseIntHex (strSlice "not-a-color" 1 3) = none ∧
    resolveColors (.str "not-a-color") ['X', 'Y'] 0 ["#00ff00", "#ff0000"] =
      List.replicate 2 (some "#00ff00") :=
  ⟨by decide, by decide,
   (resolveColors_unparseable "not-a-color" ['X', 'Y'] 0 (by decide) (by decide) (by decide)).2
     "#00ff00" ["#ff0000"]⟩

/-! ## `phases.js` : the phase engine

Each phase factory closes over construction-time geometry and returns
`{ start(), update(dt), getState() }`.  The closure's mutable cells
(`elapsed`, `toggleCount`, the `state` object) are gathered in `PhaseLocal`;
`start` and `update` become pure functions on it, and `getState()` is the
`state` projection. -/

/-- The `until` parameter of a scroll step: a keyword string or a pixel
target (`until` is a JS string or number). -/
inductive UntilSpec where
  | str : String → UntilSpec
  | num : ℚ → UntilSpec
deriving DecidableEq

/-- JS `a || b` for an optional `until` value: `''` and `0` are falsy. -/
def jsOrUntil (a : Option UntilSpec) (b : UntilSpec) : UntilSpec :=
  match a with
  | some (.str s) => if s = "" then b else .str s
  | some (.num q) => if q = 0 then b else .num q
  | none => b

/-- JS `Math.min(a, b)` on rationals. -/
def jsMin (a b : ℚ) : ℚ :=
  if a ≤ b then a else b

/-- JS `Math.abs(a)` on rationals. -/
def jsAbs (a : ℚ) : ℚ :=
  if a < 0 then -a else a

/-- The uniform render state produced by every phase
(`{ text, offsetX, offsetY, opacity, visible, colors, progress, ... }`). -/
structure RenderState where
  text : String
  offsetX : ℚ
  offsetY : ℚ
  opacity : ℚ
  visible : Bool
  colors : List (Option String)
  progress : ℚ
  stripeDirection : Option String
  wipeProgress : Option ℚ
  splitFlap : Bool
deriving DecidableEq

/-- A step description (`StepDescription`).  JS `until` and `from` are the
Lean fields `untilSpec` and `fromSide` (`from` is reserved in Lean). -/
structure Step where
  phase : Option String := none
  text : Option String := none
  duration : Option ℚ := none
  speed : Option ℚ := none
  untilSpec : Option UntilSpec := none
  times : Option ℕ := none
  interval : Option ℚ := none
  distance : Option ℚ := none
  fromSide : Option String := none
  color : ColorConfig := .noSpec
  easing : Option String := none
  stripeDirection : Option String := none
  liveTokens : Bool := false

/-- JS `step.color || '#e8e8d0'`-style defaulting on a color spec: an absent
spec and the empty string are falsy; arrays and functions are always truthy. -/
def jsOrColor (c : ColorConfig) (b : ColorConfig) : ColorConfig :=
  match c with
  | .noSpec => b
  | .str s => if s = "" then b else .str s
  | other => other

/-- The mutable cells of one phase closure: `elapsed`, `toggleCount`
(flash only), and the `state` object returned by `getState()`. -/
structure PhaseLocal where
  elapsed : ℚ
  toggleCount : ℤ
  state : RenderState
deriving DecidableEq

/-- A constructed phase instance: its closure state right after the factory
ran, plus `start()` and `update(dt)` as pure transformers.  `update` returns
the completion flag. -/
structure PhaseInstance where
  cur : PhaseLocal
  startFn : PhaseLocal → PhaseLocal
  updateFn : ℚ → PhaseLocal → PhaseLocal × Bool

/-- The signature shared by all phase factories:
`(step, containerWidth, textWidth, prevState, presetColors)`. -/
abbrev PhaseFactory := Step → ℚ → ℚ → Option RenderState → List String → PhaseInstance

/-- Modelled from the spec: the easing table `EASINGS` lives in
`defaults.js`, which is absent from the sources (only its tests are
provided).  The spec fixes the default easing name (`linear`, the identity);
the tests pin every easing at the endpoints (`e 0 = 0`, `e 1 = 1`), and the
qualitative shapes (`ease-in` below the diagonal, `ease-out` above,
`ease-in-out` symmetric, `step` jumping at 1).  The table below satisfies all
those constraints. -/
def EASINGS (name : String) : Option (ℚ → ℚ) :=
  match name with
  | "linear" => some (fun x => x)
  | "ease-in" => some (fun x => x * x)
  | "ease-out" => some (fun x => x * (2 - x))
  | "ease-in-out" =>
    some (fun x => if x < 1 / 2 then 2 * x * x else 1 - 2 * (1 - x) * (1 - x))
  | "step" => some (fun x => if x ≥ 1 then 1 else 0)
  | _ => none

/-- `resolveEasing(name)`: `EASINGS[name] || EASINGS['linear']`; the
`linear` entry is the identity. -/
def resolveEasing (name : Option String) : ℚ → ℚ :=
  match name.bind EASINGS with
  | some e => e
  | none => fun x => x

/-- `makeState(step, prevState)`: the state shape every phase starts from. -/
def makeState (step : Step) (prevState : Option RenderState) : RenderState :=
  { text := jsOrStr step.text (match prevState with | some p => p.text | none => "")
    offsetX := jsOrQ (prevState.map (·.offsetX)) 0
    offsetY := jsOrQ (prevState.map (·.offsetY)) 0
    opacity := 1
    visible := true
    colors := []
    progress := 0
    stripeDirection := jsOrOptStr step.stripeDirection
      (jsOrOptStr (prevState.bind (·.stripeDirection)) none)
    wipeProgress := none
    splitFlap := false }

/-- `step.text && (!prevState || prevState.text !== step.text)`. -/
def hasNewTextB (step : Step) (prevState : Option RenderState) : Bool :=
  match step.text with
  | some txt =>
    decide (txt ≠ "") &&
      (match prevState with
       | none => true
       | some p => decide (p.text ≠ txt))
  | none => false

/-- The `start()` body shared by the scroll, pause, float and slide
factories: reset `elapsed`, resolve the colors at progress 0. -/
def startResetFn (color : ColorConfig) (pcs : List String) (loc : PhaseLocal) : PhaseLocal :=
  { loc with elapsed := 0
             state := { loc.state with
               colors := resolveColors color loc.state.text.toList 0 pcs } }

/-- The `update(dt)` body of a scroll phase, lambda-lifted over its
closure constants. -/
def scrollUpdateFn (easing : ℚ → ℚ) (startX targetX totalTime : ℚ)
    (color : ColorConfig) (pcs : List String) (dt : ℚ) (loc : PhaseLocal) :
    PhaseLocal × Bool :=
  let elapsed := loc.elapsed + dt
  let rawProgress := if totalTime > 0 then jsMin (elapsed / totalTime) 1 else 1
  let easedProgress := easing rawProgress
  let st := { loc.state with
    progress := rawProgress
    offsetX := startX + (targetX - startX) * easedProgress
    colors := resolveColors color loc.state.text.toList rawProgress pcs }
  (⟨elapsed, loc.toggleCount, st⟩, decide (rawProgress ≥ 1))

/-- The `update(dt)` body of a flash phase, lambda-lifted over its
closure constants. -/
def flashUpdateFn (interval : ℚ) (totalToggles : ℤ) (color : ColorConfig)
    (pcs : List String) (dt : ℚ) (loc : PhaseLocal) : PhaseLocal × Bool :=
  let elapsed := loc.elapsed + dt
  let newToggleCount : ℤ := ⌊elapsed / interval⌋
  let toggleCount :=
    if newToggleCount > loc.toggleCount then newToggleCount else loc.toggleCount
  let visible :=
    if newToggleCount > loc.toggleCount then decide (toggleCount % 2 = 0)
    else loc.state.visible
  let progress := jsMin ((toggleCount : ℚ) / (totalToggles : ℚ)) 1
  let st := { loc.state with
    visible := visible
    progress := progress
    colors := resolveColors color loc.state.text.toList progress pcs }
  (⟨elapsed, toggleCount, st⟩, decide (toggleCount ≥ totalToggles))

/-- The `update(dt)` body of a pause phase, lambda-lifted over its
closure constants. -/
def pauseUpdateFn (duration : ℚ) (dt : ℚ) (loc : PhaseLocal) : PhaseLocal × Bool :=
  let elapsed := loc.elapsed + dt
  let st := { loc.state with progress := jsMin (elapsed / duration) 1 }
  (⟨elapsed, loc.toggleCount, st⟩, decide (elapsed ≥ duration))

/-- The `update(dt)` body of a fade phase, lambda-lifted over its
closure constants. -/
def fadeUpdateFn (easing : ℚ → ℚ) (duration startOpacity endOpacity : ℚ)
    (color : ColorConfig) (pcs : List String) (dt : ℚ) (loc : PhaseLocal) :
    PhaseLocal × Bool :=
  let elapsed := loc.elapsed + dt
  let rawProgress := jsMin (elapsed / duration) 1
  let easedProgress := easing rawProgress
  let st := { loc.state with
    progress := rawProgress
    opacity := startOpacity + (endOpacity - startOpacity) * easedProgress
    colors := resolveColors color loc.state.text.toList rawProgress pcs }
  (⟨elapsed, loc.toggleCount, st⟩, decide (rawProgress ≥ 1))

/-- `createScrollPhase(direction)` from `phases.js`. -/
def createScrollPhase (direction : String) : PhaseFactory :=
  fun step containerWidth textWidth prevState presetColors =>
    let speed := jsOrQ step.speed 120
    let u := jsOrUntil step.untilSpec (.str "offscreen")
    let easing := resolveEasing step.easing
    let state0 := makeState step prevState
    let state1 :=
      if hasNewTextB step prevState then
        { state0 with
          offsetX := if direction = "left" then containerWidth else -textWidth
          offsetY := 0 }
      else if prevState.isNone then
        { state0 with offsetX := if direction = "left" then containerWidth else -textWidth }
      else state0
    let targetX :=
      match u with
      | .str s =>
        if s = "center" then (containerWidth - textWidth) / 2
        else if s = "offscreen" then (if direction = "left" then -textWidth else containerWidth)
        else (if direction = "left" then -textWidth else containerWidth)
      | .num n => n
    let startX := state1.offsetX
    let totalDist := jsAbs (targetX - startX)
    let totalTime := totalDist / speed * 1000
    { cur := ⟨0, 0, state1⟩
      startFn := startResetFn step.color presetColors
      updateFn := scrollUpdateFn easing startX targetX totalTime step.color presetColors }

/-- `createFlashPhase` from `phases.js`. -/
def createFlashPhase : PhaseFactory :=
  fun step containerWidth textWidth prevState presetColors =>
    let times := jsOrNat step.times 3
    let interval := jsOrQ step.interval 300
    let totalToggles : ℤ := (times : ℤ) * 2
    let state0 := makeState step prevState
    let state1 :=
      if hasNewTextB step prevState then
        { state0 with offsetX := (containerWidth - textWidth) / 2, offsetY := 0 }
      else state0
    { cur := ⟨0, 0, state1⟩
      startFn := fun loc =>
        { elapsed := 0
          toggleCount := 0
          state := { loc.state with
            visible := true
            colors := resolveColors step.color loc.state.text.toList 0 presetColors } }
      updateFn := flashUpdateFn interval totalToggles step.color presetColors }

/-- `createPausePhase` from `phases.js`. -/
def createPausePhase : PhaseFactory :=
  fun step containerWidth textWidth prevState presetColors =>
    let duration := jsOrQ step.duration 1000
    let state0 := makeState step prevState
    let state1 :=
      if hasNewTextB step prevState then
        { state0 with offsetX := (containerWidth - textWidth) / 2, offsetY := 0 }
      else state0
    { cur := ⟨0, 0, state1⟩
      startFn := startResetFn step.color presetColors
      updateFn := pauseUpdateFn duration }

/-- `createFloatPhase(direction)` from `phases.js`. -/
def createFloatPhase (direction : String) : PhaseFactory :=
  fun step containerWidth textWidth prevState presetColors =>
    let duration := jsOrQ step.duration 800
    let distance := jsOrQ step.distance 60
    let easing := resolveEasing (some (jsOrStr step.easing "ease-out"))
    let state0 := makeState step prevState
    let state1 :=
      if hasNewTextB step prevState then
        { state0 with offsetX := (containerWidth - textWidth) / 2, offsetY := 0 }
      else state0
    let startY := state1.offsetY
    { cur := ⟨0, 0, state1⟩
      startFn := startResetFn step.color presetColors
      updateFn := fun dt loc =>
        let elapsed := loc.elapsed + dt
        let rawProgress := jsMin (elapsed / duration) 1
        let easedProgress := easing rawProgress
        let st := { loc.state with
          progress := rawProgress
          offsetY := if direction = "up" then startY - distance * easedProgress
                     else startY + distance * easedProgress
          colors := resolveColors step.color loc.state.text.toList rawProgress presetColors }
        (⟨elapsed, loc.toggleCount, st⟩, decide (rawProgress ≥ 1)) }

/-- `createFadePhase(direction)` from `phases.js`. -/
def createFadePhase (direction : String) : PhaseFactory :=
  fun step containerWidth textWidth prevState presetColors =>
    let duration := jsOrQ step.duration 600
    let easing := resolveEasing (some (jsOrStr step.easing "ease-in-out"))
    let startOpacity : ℚ := if direction = "in" then 0 else 1
    let endOpacity : ℚ := if direction = "in" then 1 else 0
    let state0 := makeState step prevState
    let state1 :=
      if direction = "in" && hasNewTextB step prevState then
        { state0 with offsetX := (containerWidth - textWidth) / 2, offsetY := 0 }
      else state0
    { cur := ⟨0, 0, state1⟩
      startFn := fun loc =>
        { loc with
          elapsed := 0
          state := { loc.state with
            opacity := startOpacity
            colors := resolveColors step.color loc.state.text.toList 0 presetColors } }
      updateFn := fadeUpdateFn easing duration startOpacity endOpacity step.color presetColors }

/-- `createWipePhase(direction)` from `phases.js`. -/
def createWipePhase (direction : String) : PhaseFactory :=
  fun step containerWidth textWidth prevState presetColors =>
    let duration := jsOrQ step.duration 800
    let easing := resolveEasing (some (jsOrStr step.easing "linear"))
    let state0 := makeState step prevState
    let state1 :=
      if direction = "in" && hasNewTextB step prevState then
        { state0 with offsetX := (containerWidth - textWidth) / 2, offsetY := 0 }
      else state0
    { cur := ⟨0, 0, state1⟩
      startFn := fun loc =>
        { loc with
          elapsed := 0
          state := { loc.state with
            colors := resolveColors step.color loc.state.text.toList 0 presetColors
            wipeProgress := some (if direction = "in" then 0 else 1) } }
      updateFn := fun dt loc =>
        let elapsed := loc.elapsed + dt
        let rawProgress := jsMin (elapsed / duration) 1
        let easedProgress := easing rawProgress
        let st := { loc.state with
          progress := rawProgress
          wipeProgress := some (if direction = "in" then easedProgress else 1 - easedProgress)
          colors := resolveColors step.color loc.state.text.toList rawProgress presetColors }
        (⟨elapsed, loc.toggleCount, st⟩, decide (rawProgress ≥ 1)) }

/-- `createSlidePhase(direction)` from `phases.js`. -/
def createSlidePhase (direction : String) : PhaseFactory :=
  fun step containerWidth textWidth prevState presetColors =>
    let duration := jsOrQ step.duration 600
    let fromS := jsOrStr step.fromSide (if direction = "in" then "right" else "left")
    let easing := resolveEasing (some (jsOrStr step.easing "ease-out"))
    let state0 := makeState step prevState
    let centerX := (containerWidth - textWidth) / 2
    let startX :=
      if direction = "in" then (if fromS = "right" then containerWidth else -textWidth)
      else (match prevState with | some p => p.offsetX | none => centerX)
    let targetX :=
      if direction = "in" then centerX
      else (if fromS = "right" then containerWidth else -textWidth)
    let state1 :=
      if direction = "in" then { state0 with offsetX := startX, offsetY := 0 }
      else state0
    { cur := ⟨0, 0, state1⟩
      startFn := startResetFn step.color presetColors
      updateFn := fun dt loc =>
        let elapsed := loc.elapsed + dt
        let rawProgress := jsMin (elapsed / duration) 1
        let easedProgress := easing rawProgress
        let st := { loc.state with
          progress := rawProgress
          offsetX := startX + (targetX - startX) * easedProgress
          colors := resolveColors step.color loc.state.text.toList rawProgress presetColors }
        (⟨elapsed, loc.toggleCount, st⟩, decide (rawProgress ≥ 1)) }

/-- `createSplitFlapPhase` from `phases.js`. -/
def createSplitFlapPhase : PhaseFactory :=
  fun step containerWidth textWidth prevState presetColors =>
    let duration := jsOrQ step.duration 3000
    let state0 := makeState step prevState
    let state1 := { state0 with
      splitFlap := true
      offsetX := (containerWidth - textWidth) / 2
      offsetY := 0 }
    { cur := ⟨0, 0, state1⟩
      startFn := fun loc =>
        { loc with
          elapsed := 0
          state := { loc.state with
            colors := resolveColors (jsOrColor step.color (.str "#e8e8d0"))
              loc.state.text.toList 0 presetColors } }
      updateFn := fun dt loc =>
        let elapsed := loc.elapsed + dt
        let st := { loc.state with progress := jsMin (elapsed / duration) 1 }
        (⟨elapsed, loc.toggleCount, st⟩, decide (elapsed ≥ duration)) }

/-- The phase registry of `phases.js`. -/
def PHASE_REGISTRY (name : String) : Option PhaseFactory :=
  match name with
  | "scroll-left" => some (createScrollPhase "left")
  | "scroll-right" => some (createScrollPhase "right")
  | "flash" => some createFlashPhase
  | "pause" => some createPausePhase
  | "float-up" => some (createFloatPhase "up")
  | "float-down" => some (createFloatPhase "down")
  | "fade-in" => some (createFadePhase "in")
  | "fade-out" => some (createFadePhase "out")
  | "wipe-in" => some (createWipePhase "in")
  | "wipe-out" => some (createWipePhase "out")
  | "slide-in" => some (createSlidePhase "in")
  | "slide-out" => some (createSlidePhase "out")
  | "split-flap" => some createSplitFlapPhase
  | _ => none

/-- The allow-list the `random` pseudo-phase draws from. -/
def CHOICES : List String :=
  ["scroll-left", "scroll-right", "flash", "fade-in", "fade-out", "wipe-in",
   "float-up", "float-down"]

/-- A token-resolution context (`{ container, tokens }` in `tokens.js`),
abstracted as the substitution it performs on a text; the actual
`resolveTokens` reads the wall clock and the DOM, which are environment
inputs. -/
abbrev TokenCtx := String → String

/-- The phase-type resolution at the top of `createPhase`: default `pause`,
and `random` drawn from `CHOICES`.  `rand` is the environment's random draw,
supplied as `Math.floor(Math.random() * choices.length)` reduced mod the
list length. -/
def resolvePhaseType (rand : ℕ) (step : Step) : String :=
  let ty := jsOrStr step.phase "pause"
  if ty = "random" then CHOICES.getD (rand % CHOICES.length) "pause" else ty

/-- `createPhase(step, containerWidth, textWidth, prevState, presetColors,
tokenContext)` from `phases.js`: resolves the phase type (throwing
`Unknown phase: ...` for names missing from the registry), substitutes
tokens into the step text when a context is present, and wraps `update` for
`liveTokens` (modelled for steps with a defined text). -/
def createPhase (rand : ℕ) (step : Step) (containerWidth textWidth : ℚ)
    (prevState : Option RenderState) (presetColors : List String)
    (tokenContext : Option TokenCtx) : Except String PhaseInstance :=
  let ty := resolvePhaseType rand step
  let step :=
    match step.text, tokenContext with
    | some txt, some ctx => if txt ≠ "" then { step with text := some (ctx txt) } else step
    | _, _ => step
  match PHASE_REGISTRY ty with
  | none => .error ("Unknown phase: " ++ ty)
  | some factory =>
    let phase := factory step containerWidth textWidth prevState presetColors
    let phase :=
      match tokenContext with
      | some ctx =>
        if step.liveTokens then
          { phase with updateFn := fun dt loc =>
              let res := phase.updateFn dt loc
              ({ res.1 with state := { res.1.state with text := ctx (jsOrStr step.text "") } },
               res.2) }
        else phase
      | none => phase
    .ok phase

lemma EASINGS_one : ∀ s e, EASINGS s = some e → e 1 = 1 := by
  intro s e h
  unfold EASINGS at h
  split at h <;> first
    | (injection h with h; subst h; norm_num)
    | simp at h

lemma resolveEasing_one (name : Option String) : resolveEasing name 1 = 1 := by
  unfold resolveEasing
  rcases name with _ | s
  · rfl
  · simp only [Option.bind]
    rcases h : EASINGS s with _ | e
    · simp [h]
    · simp [h]
      exact EASINGS_one s e h

/-! ## `timeline.js` : the sequencer

The `Timeline` drives a `requestAnimationFrame` loop.  `rafScheduled` models
whether a frame callback is pending; a callback firing consumes it, and the
code's `requestAnimationFrame` calls set it again.  `tick ts` runs the
`_tick(timestamp)` callback.  A JS exception escaping a method is the
`Option String` component of the result, next to the object state at the
moment of the throw (JS mutations made before a throw persist). -/

/-- The sequencer states (`STATE = { IDLE: 0, PLAYING: 1, PAUSED: 2 }`). -/
inductive TState where
  | IDLE
  | PLAYING
  | PAUSED
deriving DecidableEq

/-- Notifications emitted by the Timeline. -/
inductive TEvent where
  | phaseStart (index : ℕ)
  | phaseEnd (index : ℕ)
  | sequenceEnd
deriving DecidableEq

/-- The renderer operations the Timeline consumes when building a phase. -/
structure RendererModel where
  containerWidth : ℚ
  measureText : String → ℚ

/-- The `Timeline` object: options (`maxFps`, `loop`, `presetColors`), the
step list, the sparse `phases` array, cursor, state, `lastTimestamp`, and an
append-only log of emitted notifications.  `rand` supplies the environment's
random draws for `random` steps. -/
structure Timeline where
  renderer : RendererModel
  maxFps : Option ℚ
  loopOpt : Bool
  presetColors : List String
  rand : ℕ
  tokenContext : Option TokenCtx
  stepConfigs : List Step
  phases : List (Option PhaseInstance)
  currentIndex : ℕ
  tstate : TState
  rafScheduled : Bool
  lastTimestamp : ℚ
  containerWidth : ℚ
  events : List TEvent

/-- Read `this.phases[i]` of a JS sparse array. -/
def arrGet (l : List (Option PhaseInstance)) (i : ℕ) : Option PhaseInstance :=
  l.getD i none

/-- Write `this.phases[i] = ph`, extending the array with holes if needed. -/
def arrSet (l : List (Option PhaseInstance)) (i : ℕ) (ph : PhaseInstance) :
    List (Option PhaseInstance) :=
  if i < l.length then l.set i (some ph)
  else l ++ List.replicate (i - l.length) none ++ [some ph]

/-- `stop()`: force IDLE, cancel the pending frame, reset cursor, drop
constructed phases. -/
def Timeline.stop (t : Timeline) : Timeline :=
  { t with tstate := .IDLE, rafScheduled := false, currentIndex := 0, phases := [] }

/-- `setSequence(steps)`: stop, replace the step configs, clear phases. -/
def Timeline.setSequence (t : Timeline) (steps : List Step) : Timeline :=
  let t := t.stop
  { t with stepConfigs := steps, phases := [], currentIndex := 0 }

/-- `_buildPhase(index)`: read the predecessor's state from the phases
array, refresh `containerWidth`, measure the text, and run `createPhase`
(which may throw). -/
def Timeline.buildPhase (t : Timeline) (index : ℕ) :
    Timeline × Except String PhaseInstance :=
  match t.stepConfigs.get? index with
  | none => (t, .error "undefined step")
  | some step =>
    let prevState :=
      if index > 0 then (arrGet t.phases (index - 1)).map (fun p => p.cur.state)
      else none
    let t := { t with containerWidth := t.renderer.containerWidth }
    let textWidth := t.renderer.measureText
      (jsOrStr step.text (match prevState with | some s => jsOrStr (some s.text) "" | none => ""))
    (t, createPhase t.rand step t.containerWidth textWidth prevState t.presetColors
      t.tokenContext)

/-- `play()` from `timeline.js`. -/
def Timeline.play (t : Timeline) : Timeline × Option String :=
  if t.tstate = .PLAYING then (t, none)
  else if t.tstate = .IDLE then
    if t.stepConfigs.length = 0 then (t, none)
    else
      let t := { t with currentIndex := 0, phases := [] }
      match t.buildPhase 0 with
      | (t, .error e) => (t, some e)
      | (t, .ok ph) =>
        let ph := { ph with cur := ph.startFn ph.cur }
        let t := { t with
          phases := arrSet t.phases 0 ph
          events := t.events ++ [TEvent.phaseStart 0]
          tstate := .PLAYING
          lastTimestamp := 0
          rafScheduled := true }
        (t, none)
  else
    ({ t with tstate := .PLAYING, lastTimestamp := 0, rafScheduled := true }, none)

/-- `pause()` from `timeline.js`. -/
def Timeline.pause (t : Timeline) : Timeline :=
  if t.tstate ≠ .PLAYING then t
  else { t with tstate := .PAUSED, rafScheduled := false }

/-- The delta `_tick` computes: `this.lastTimestamp ? timestamp -
this.lastTimestamp : 16`. -/
def tickDt (ts lastTimestamp : ℚ) : ℚ :=
  if lastTimestamp ≠ 0 then ts - lastTimestamp else 16

/-- The FPS-cap skip test of `_tick`: `this.options.maxFps &&
this.options.maxFps > 0 && this.lastTimestamp` and `elapsed <
minFrameTime * 0.8`. -/
def tickSkips (t : Timeline) (ts : ℚ) : Bool :=
  match t.maxFps with
  | some m =>
    decide (m ≠ 0) && decide (m > 0) && decide (t.lastTimestamp ≠ 0) &&
      decide (ts - t.lastTimestamp < 1000 / m * (8 / 10))
  | none => false

/-- `_tick(timestamp)` from `timeline.js`.  The pending frame callback is
consumed on entry; every `requestAnimationFrame` call sets it again. -/
def Timeline.tick (t : Timeline) (ts : ℚ) : Timeline × Option String :=
  let t := { t with rafScheduled := false }
  if t.tstate ≠ .PLAYING then (t, none)
  else if tickSkips t ts then ({ t with rafScheduled := true }, none)
  else
    let dt := tickDt ts t.lastTimestamp
    let t := { t with lastTimestamp := ts }
    match arrGet t.phases t.currentIndex with
    | none => (t.stop, none)
    | some ph =>
      let res := ph.updateFn dt ph.cur
      let ph := { ph with cur := res.1 }
      let t := { t with phases := arrSet t.phases t.currentIndex ph }
      if res.2 then
        let t := { t with
          events := t.events ++ [TEvent.phaseEnd t.currentIndex]
          currentIndex := t.currentIndex + 1 }
        if t.currentIndex ≥ t.stepConfigs.length then
          if t.loopOpt then
            let t := { t with currentIndex := 0, phases := [] }
            match t.buildPhase 0 with
            | (t, .error e) => (t, some e)
            | (t, .ok nph) =>
              let nph := { nph with cur := nph.startFn nph.cur }
              ({ t with
                  phases := arrSet t.phases 0 nph
                  events := t.events ++ [TEvent.sequenceEnd, TEvent.phaseStart 0]
                  rafScheduled := true }, none)
          else
            ({ t with events := t.events ++ [TEvent.sequenceEnd], tstate := .IDLE }, none)
        else
          match t.buildPhase t.currentIndex with
          | (t, .error e) => (t, some e)
          | (t, .ok nph) =>
            let nph := { nph with cur := nph.startFn nph.cur }
            ({ t with
                phases := arrSet t.phases t.currentIndex nph
                events := t.events ++ [TEvent.phaseStart t.currentIndex]
                rafScheduled := true }, none)
      else ({ t with rafScheduled := true }, none)

/-! ## C1 : the scroll-until-center scenario -/

lemma jsMin_one_le (a : ℚ) : jsMin a 1 ≤ 1 := by
  unfold jsMin
  split <;> [assumption; exact le_refl 1]

lemma scrollUpdateFn_done_offsetX (easing : ℚ → ℚ) (sx tx tt : ℚ) (c : ColorConfig)
    (pcs : List String) (dt : ℚ) (loc : PhaseLocal)
    (he : easing 1 = 1)
    (hdone : (scrollUpdateFn easing sx tx tt c pcs dt loc).2 = true) :
    (scrollUpdateFn easing sx tx tt c pcs dt loc).1.state.offsetX = tx := by
  unfold scrollUpdateFn at hdone ⊢
  simp only at hdone ⊢
  have hge : (if tt > 0 then jsMin ((loc.elapsed + dt) / tt) 1 else 1) ≥ 1 :=
    of_decide_eq_true hdone
  have hle : (if tt > 0 then jsMin ((loc.elapsed + dt) / tt) 1 else 1) ≤ 1 := by
    split <;> [exact jsMin_one_le _; exact le_refl 1]
  have h1 : (if tt > 0 then jsMin ((loc.elapsed + dt) / tt) 1 else 1) = 1 :=
    le_antisymm hle hge
  rw [h1, he]
  ring

lemma createScrollPhase_center_shape (direction : String) (step : Step) (cw tw : ℚ)
    (prev : Option RenderState) (pcs : List String)
    (hu : step.untilSpec = some (.str "center")) :
    ∃ sx tt : ℚ,
      (createScrollPhase direction step cw tw prev pcs).updateFn =
        scrollUpdateFn (resolveEasing step.easing) sx ((cw - tw) / 2) tt step.color pcs := by
  unfold createScrollPhase
  simp only [hu, jsOrUntil]
  norm_num
  exact ⟨_, _, rfl⟩

/-- The renderer of end-to-end scenario A: a 500px container in which every
text measures 60px. -/
def scenARenderer : RendererModel := ⟨500, fun _ => 60⟩

/-- The single step of scenario A. -/
def scenAStep : Step :=
  { text := some "HI", phase := some "scroll-left",
    untilSpec := some (.str "center"), speed := some 100 }

/-- A freshly constructed Timeline (loop disabled, no FPS cap, no palette). -/
def scenAInit : Timeline :=
  { renderer := scenARenderer, maxFps := none, loopOpt := false, presetColors := []
    rand := 0, tokenContext := none, stepConfigs := [], phases := [], currentIndex := 0
    tstate := .IDLE, rafScheduled := false, lastTimestamp := 0, containerWidth := 0
    events := [] }

/-- Scenario A after `setSequence` and `play()`. -/
def scenAPlaying : Timeline := ((scenAInit.setSequence [scenAStep]).play).1

/-- Scenario A after two frames, at timestamps 100 and 5000 (deltas 16 and
4900, summing past the phase's 2800ms nominal duration). -/
def scenADone : Timeline := (((scenAPlaying.tick 100).1).tick 5000).1

/-- C1: running `[{text:'HI', phase:'scroll-left', until:'center',
speed:100}]` against a 500px container with measured text width 60px, the
phase starts at offsetX 500 (the off-screen right edge); after ticks whose
deltas (16 + 4900) exceed the 2800ms nominal scroll time the stored phase
state has offsetX (500−60)/2 = 220, the phase has completed
(phase-end then sequence-end fired, in order) and the Timeline, loop
disabled, is back in IDLE.  In general every scroll phase with
`until:'center'` reports completion only with `offsetX = (containerWidth −
textWidth) / 2` exactly. -/
theorem scroll_center_end_to_end :
    ((arrGet scenAPlaying.phases 0).map (fun p => p.cur.state.offsetX) = some 500 ∧
     tickDt 100 0 + tickDt 5000 100 ≥ jsAbs ((500 - 60) / 2 - 500) / 100 * 1000 ∧
     (arrGet scenADone.phases 0).map (fun p => p.cur.state.offsetX) = some ((500 - 60) / 2) ∧
     (arrGet scenADone.phases 0).map (fun p => p.cur.state.offsetX) = some 220 ∧
     scenADone.events = [TEvent.phaseStart 0, TEvent.phaseEnd 0, TEvent.sequenceEnd] ∧
     scenADone.tstate = .IDLE) ∧
    (∀ (direction : String) (step : Step) (cw tw : ℚ) (prev : Option RenderState)
       (pcs : List String) (dt : ℚ) (loc : PhaseLocal),
      step.untilSpec = some (.str "center") →
      ((createScrollPhase direction step cw tw prev pcs).updateFn dt loc).2 = true →
      ((createScrollPhase direction step cw tw prev pcs).updateFn dt loc).1.state.offsetX =
        (cw - tw) / 2) := by
  constructor
  · refine ⟨by with_unfolding_all rfl, by with_unfolding_all decide,
      by with_unfolding_all rfl, by with_unfolding_all rfl,
      by with_unfolding_all rfl, by with_unfolding_all rfl⟩
  · intro direction step cw tw prev pcs dt loc hu hdone
    obtain ⟨sx, tt, heq⟩ := createScrollPhase_center_shape direction step cw tw prev pcs hu
    rw [heq] at hdone ⊢
    exact scrollUpdateFn_done_offsetX _ sx _ tt step.color pcs dt loc
      (resolveEasing_one step.easing) hdone

/-- Witness for C1's general part at the scenario's own phase: the
scroll-left phase over a 500px container and 60px text, updated by a single
2800ms delta, is complete and rests at offsetX (500−60)/2. -/
theorem scroll_center_end_to_end_w :
    scenAStep.untilSpec = some (.str "center") ∧
    ((createScrollPhase "left" scenAStep 500 60 none []).updateFn 2800
        (createScrollPhase "left" scenAStep 500 60 none []).cur).2 = true ∧
    ((createScrollPhase "left" scenAStep 500 60 none []).updateFn 2800
        (createScrollPhase "left" scenAStep 500 60 none []).cur).1.state.offsetX =
      (500 - 60) / 2 :=
  ⟨rfl, by with_unfolding_all rfl,
   scroll_center_end_to_end.2 "left" scenAStep 500 60 none [] 2800 _ rfl
     (by with_unfolding_all rfl)⟩

/-! ## C4 : the pause phase -/

lemma jsOrQ_some_zero (q : ℚ) : jsOrQ (some q) 0 = q := by
  unfold jsOrQ
  split <;> simp_all

/-- C4 (amended): a pause phase built on a predecessor state by a step that
omits `text` inherits the predecessor's text, offsetX and offsetY at
construction; `start()` keeps them and re-resolves `colors` from the pause
step's own color spec (the built-in default `#ff3300` when the step has
none — the predecessor's colors are NOT copied forward; see the
counterexample); every `update(dt)` leaves text, offsets, colors, opacity,
visibility, stripe direction and wipe progress untouched, accumulates
`elapsed`, sets only `progress = min(elapsed/duration, 1)`, and reports
completion exactly when the accumulated elapsed time reaches the configured
duration (default 1000ms). -/
theorem pause_inherits_and_advances_progress (step : Step) (cw tw : ℚ)
    (prev : RenderState) (pcs : List String) (htext : step.text = none) :
    (createPausePhase step cw tw (some prev) pcs).cur.state.text = prev.text ∧
    (createPausePhase step cw tw (some prev) pcs).cur.state.offsetX = prev.offsetX ∧
    (createPausePhase step cw tw (some prev) pcs).cur.state.offsetY = prev.offsetY ∧
    (∀ loc : PhaseLocal,
      ((createPausePhase step cw tw (some prev) pcs).startFn loc).state.text =
        loc.state.text ∧
      ((createPausePhase step cw tw (some prev) pcs).startFn loc).state.offsetX =
        loc.state.offsetX ∧
      ((createPausePhase step cw tw (some prev) pcs).startFn loc).state.offsetY =
        loc.state.offsetY ∧
      ((createPausePhase step cw tw (some prev) pcs).startFn loc).state.colors =
        resolveColors step.color loc.state.text.toList 0 pcs ∧
      ((createPausePhase step cw tw (some prev) pcs).startFn loc).elapsed = 0) ∧
    (∀ (dt : ℚ) (loc : PhaseLocal),
      (((createPausePhase step cw tw (some prev) pcs).updateFn dt loc).1.state.text =
          loc.state.text ∧
        ((createPausePhase step cw tw (some prev) pcs).updateFn dt loc).1.state.offsetX =
          loc.state.offsetX ∧
        ((createPausePhase step cw tw (some prev) pcs).updateFn dt loc).1.state.offsetY =
          loc.state.offsetY ∧
        ((createPausePhase step cw tw (some prev) pcs).updateFn dt loc).1.state.colors =
          loc.state.colors ∧
        ((createPausePhase step cw tw (some prev) pcs).updateFn dt loc).1.state.opacity =
          loc.state.opacity ∧
        ((createPausePhase step cw tw (some prev) pcs).updateFn dt loc).1.state.visible =
          loc.state.visible ∧
        ((createPausePhase step cw tw (some prev) pcs).updateFn dt loc).1.state.stripeDirection =
          loc.state.stripeDirection ∧
        ((createPausePhase step cw tw (some prev) pcs).updateFn dt loc).1.state.wipeProgress =
          loc.state.wipeProgress) ∧
      ((createPausePhase step cw tw (some prev) pcs).updateFn dt loc).1.state.progress =
        jsMin ((loc.elapsed + dt) / jsOrQ step.duration 1000) 1 ∧
      ((createPausePhase step cw tw (some prev) pcs).updateFn dt loc).1.elapsed =
        loc.elapsed + dt ∧
      (((createPausePhase step cw tw (some prev) pcs).updateFn dt loc).2 = true ↔
        loc.elapsed + dt ≥ jsOrQ step.duration 1000)) := by
  have hhnt : hasNewTextB step (some prev) = false := by
    unfold hasNewTextB
    rw [htext]
  unfold createPausePhase
  simp only [hhnt, Bool.false_eq_true, if_false]
  refine ⟨?_, ?_, ?_, ?_, ?_⟩
  · simp [makeState, htext, jsOrStr]
  · simp [makeState, jsOrQ_some_zero]
  · simp [makeState, jsOrQ_some_zero]
  · intro loc
    simp [startResetFn]
  · intro dt loc
    unfold pauseUpdateFn
    simp [decide_eq_true_iff]

/-- The predecessor for the C4 counterexample: a pause phase over text `A`
colored `#00ff00`, read right after `start()`. -/
def c4PrevPhase : PhaseInstance :=
  createPausePhase { text := some "A", color := .str "#00ff00" } 500 60 none []

/-- The predecessor's final render state (green colors). -/
def c4Prev : RenderState := (c4PrevPhase.startFn c4PrevPhase.cur).state

/-- A pause step with no text and no color spec, built on that state. -/
def c4Phase : PhaseInstance :=
  createPausePhase { duration := some 100 } 500 60 (some c4Prev) []

/-- C4 counterexample: the follow-up pause keeps the predecessor's text and
offsetX but replaces its colors `["#00ff00"]` by the default `["#ff3300"]`
at `start()` — refuting the claim that a pause holds the predecessor's
colors unchanged. -/
theorem pause_colors_cex :
    ({ duration := some 100 } : Step).text = none ∧
    c4Prev.colors = [some "#00ff00"] ∧
    (c4Phase.startFn c4Phase.cur).state.text = c4Prev.text ∧
    (c4Phase.startFn c4Phase.cur).state.offsetX = c4Prev.offsetX ∧
    (c4Phase.startFn c4Phase.cur).state.colors = [some "#ff3300"] ∧
    [some "#ff3300"] ≠ c4Prev.colors := by
  refine ⟨rfl, by with_unfolding_all rfl, by with_unfolding_all rfl,
    by with_unfolding_all rfl, by with_unfolding_all rfl, by with_unfolding_all decide⟩

/-- Witness for C4 at the concrete follow-up pause (duration 100, one 40ms
update). -/
theorem pause_inherits_w :
    ({ duration := some 100 } : Step).text = none ∧
    c4Phase.cur.state.text = c4Prev.text ∧
    c4Phase.cur.state.offsetX = c4Prev.offsetX ∧
    ((c4Phase.updateFn 40 (c4Phase.startFn c4Phase.cur)).2 = true ↔
      (c4Phase.startFn c4Phase.cur).elapsed + 40 ≥ jsOrQ (some 100) 1000) :=
  ⟨rfl,
   (pause_inherits_and_advances_progress { duration := some 100 } 500 60 c4Prev [] rfl).1,
   (pause_inherits_and_advances_progress { duration := some 100 } 500 60 c4Prev [] rfl).2.1,
   (pause_inherits_and_advances_progress { duration := some 100 } 500 60 c4Prev []
      rfl).2.2.2.2 40 (c4Phase.startFn c4Phase.cur) |>.2.2.2⟩

/-! ## C8 : frame-rate capping -/

/-- C8: with a positive `maxFps` configured and a previous executed tick on
record (`lastTimestamp ≠ 0`), a tick at time `ts` is skipped if and only if
less than `0.8 × (1000/maxFps)` ms have elapsed since the last executed
tick; a skipped tick changes nothing but re-scheduling the next frame (in
particular `lastTimestamp` is not updated and no phase advances), and an
executed tick advances the current phase by the delta `ts − lastTimestamp`
— the whole real interval including any skipped frames — and only then
records `ts` as the new last-executed timestamp, so no motion time is
lost. -/
theorem fps_cap_skip (t : Timeline) (ts m : ℚ)
    (hplay : t.tstate = .PLAYING) (hm : t.maxFps = some m) (hmpos : m > 0)
    (hlast : t.lastTimestamp ≠ 0) :
    (tickSkips t ts = true ↔ ts - t.lastTimestamp < 1000 / m * (8 / 10)) ∧
    (tickSkips t ts = true →
      t.tick ts = ({ t with rafScheduled := true }, none)) ∧
    (tickSkips t ts = false →
      ∀ ph, arrGet t.phases t.currentIndex = some ph →
      (ph.updateFn (ts - t.lastTimestamp) ph.cur).2 = false →
      t.tick ts =
        ({ t with
            rafScheduled := true
            lastTimestamp := ts
            phases := arrSet t.phases t.currentIndex
              { ph with cur := (ph.updateFn (ts - t.lastTimestamp) ph.cur).1 } }, none)) := by
  have hiff : tickSkips t ts = true ↔ ts - t.lastTimestamp < 1000 / m * (8 / 10) := by
    unfold tickSkips
    rw [hm]
    simp [ne_of_gt hmpos, hmpos, hlast]
  refine ⟨hiff, ?_, ?_⟩
  · intro hskip
    have hcond : ts - t.lastTimestamp < 1000 / m * (8 / 10) := hiff.mp hskip
    unfold Timeline.tick
    simp only [hplay]
    unfold tickSkips
    simp [hm, ne_of_gt hmpos, hmpos, hlast, hcond]
  · intro hnoskip ph hph hndone
    have hcond : ¬ (ts - t.lastTimestamp < 1000 / m * (8 / 10)) := by
      intro h
      rw [hiff.mpr h] at hnoskip
      exact Bool.true_eq_false.mp hnoskip
    have hdt : tickDt ts t.lastTimestamp = ts - t.lastTimestamp := by
      unfold tickDt; simp [hlast]
    unfold Timeline.tick
    simp only [hplay]
    unfold tickSkips
    simp [hm, ne_of_gt hmpos, hmpos, hlast, hcond, hdt, hph, hndone]

/-- Scenario A's mid-flight Timeline with a 50fps cap switched on:
`lastTimestamp = 100`, so a tick at 110 (elapsed 10 < 16 = 0.8×20ms) must be
skipped. -/
def c8Timeline : Timeline := { (scenAPlaying.tick 100).1 with maxFps := some 50 }

/-- Witness for C8: at the concrete capped Timeline, the skip test matches
the 0.8×(1000/50) = 16ms threshold and the skipped tick only re-schedules. -/
theorem fps_cap_skip_w :
    (c8Timeline.tstate = .PLAYING ∧ c8Timeline.maxFps = some 50 ∧ (50 : ℚ) > 0 ∧
      c8Timeline.lastTimestamp ≠ 0) ∧
    (tickSkips c8Timeline 110 = true ↔
      (110 : ℚ) - c8Timeline.lastTimestamp < 1000 / 50 * (8 / 10)) ∧
    c8Timeline.tick 110 = ({ c8Timeline with rafScheduled := true }, none) :=
  ⟨⟨by with_unfolding_all rfl, rfl, by norm_num, by with_unfolding_all decide⟩,
   (fps_cap_skip c8Timeline 110 50 (by with_unfolding_all rfl) rfl (by norm_num)
      (by with_unfolding_all decide)).1,
   (fps_cap_skip c8Timeline 110 50 (by with_unfolding_all rfl) rfl (by norm_num)
      (by with_unfolding_all decide)).2.1 (by with_unfolding_all rfl)⟩

/-! ## C2 : sequence end: loop or IDLE -/

/-- C2: when the phase at the final index reports completion during a tick,
the Timeline emits phase-end then, with looping enabled (and phase 0
rebuildable), sequence-end followed by phase-start for index 0, stays in
PLAYING with the next frame scheduled (it never passes through IDLE — the
IDLE assignment is only in the non-looping branch); with looping disabled it
emits phase-end then sequence-end, returns to IDLE and schedules no further
frame. -/
theorem sequence_end_loop_or_idle (t : Timeline) (ts : ℚ) (ph : PhaseInstance) (step0 : Step)
    (hplay : t.tstate = .PLAYING)
    (hnofps : t.maxFps = none)
    (hph : arrGet t.phases t.currentIndex = some ph)
    (hlastidx : t.currentIndex + 1 = t.stepConfigs.length)
    (hdone : (ph.updateFn (tickDt ts t.lastTimestamp) ph.cur).2 = true) :
    (t.loopOpt = true →
      ∀ inst, t.stepConfigs.get? 0 = some step0 →
      createPhase t.rand step0 t.renderer.containerWidth
          (t.renderer.measureText (jsOrStr step0.text "")) none t.presetColors t.tokenContext
        = .ok inst →
      (t.tick ts).2 = none ∧
      (t.tick ts).1.tstate = .PLAYING ∧
      (t.tick ts).1.rafScheduled = true ∧
      (t.tick ts).1.currentIndex = 0 ∧
      (t.tick ts).1.events =
        t.events ++ [TEvent.phaseEnd t.currentIndex, TEvent.sequenceEnd, TEvent.phaseStart 0]) ∧
    (t.loopOpt = false →
      (t.tick ts).2 = none ∧
      (t.tick ts).1.tstate = .IDLE ∧
      (t.tick ts).1.rafScheduled = false ∧
      (t.tick ts).1.events = t.events ++ [TEvent.phaseEnd t.currentIndex, TEvent.sequenceEnd]) := by
  have hskip : tickSkips t ts = false := by
    unfold tickSkips
    rw [hnofps]
  have hge : t.stepConfigs.length ≤ t.currentIndex + 1 := le_of_eq hlastidx.symm
  constructor
  · intro hloop inst hstep0 hcreate
    have hstep0' : t.stepConfigs[0]? = some step0 := by
      rw [← List.get?_eq_getElem?]
      exact hstep0
    unfold Timeline.tick
    simp only [hplay]
    unfold tickSkips
    unfold Timeline.buildPhase
    simp [hnofps, hph, hdone, hge, hloop, hstep0', hcreate]
  · intro hnoloop
    unfold Timeline.tick
    simp only [hplay]
    unfold tickSkips
    simp [hnofps, hph, hdone, hge, hnoloop]

/-- A do-nothing phase instance used only as the default of `Option.getD`
when extracting concrete phases that are known to exist. -/
def fallbackPhase : PhaseInstance := ⟨⟨0, 0, makeState {} none⟩, id, fun _ l => (l, false)⟩

/-- A single looping pause step (duration 100ms). -/
def c2Step : Step := { phase := some "pause", text := some "X", duration := some 100 }

/-- The looping Timeline after `play()`. -/
def c2Playing : Timeline := (({ scenAInit with loopOpt := true }).setSequence [c2Step]).play |>.1

/-- The looping Timeline after one executed frame at timestamp 50. -/
def c2T : Timeline := (c2Playing.tick 50).1

/-- The stored pause phase of `c2T` (elapsed 16ms). -/
def c2Ph : PhaseInstance := (arrGet c2T.phases c2T.currentIndex).getD fallbackPhase

/-- The rebuilt phase-0 instance the loop branch constructs. -/
def c2Inst : PhaseInstance :=
  match createPhase c2T.rand c2Step c2T.renderer.containerWidth
      (c2T.renderer.measureText (jsOrStr c2Step.text "")) none c2T.presetColors
      c2T.tokenContext with
  | .ok p => p
  | .error _ => fallbackPhase

/-- Witness for C2: the looping single-pause Timeline, ticked past the
100ms duration at timestamp 250, fires sequence-end then phase-start 0 and
keeps PLAYING. -/
theorem sequence_end_loop_w :
    (c2T.tstate = .PLAYING ∧ c2T.maxFps = none ∧
     arrGet c2T.phases c2T.currentIndex = some c2Ph ∧
     c2T.currentIndex + 1 = c2T.stepConfigs.length ∧
     (c2Ph.updateFn (tickDt 250 c2T.lastTimestamp) c2Ph.cur).2 = true ∧
     c2T.loopOpt = true ∧
     c2T.stepConfigs.get? 0 = some c2Step ∧
     createPhase c2T.rand c2Step c2T.renderer.containerWidth
        (c2T.renderer.measureText (jsOrStr c2Step.text "")) none c2T.presetColors
        c2T.tokenContext = .ok c2Inst) ∧
    ((c2T.tick 250).1.tstate = .PLAYING ∧
     (c2T.tick 250).1.currentIndex = 0 ∧
     (c2T.tick 250).1.rafScheduled = true ∧
     (c2T.tick 250).1.events = c2T.events ++
       [TEvent.phaseEnd c2T.currentIndex, TEvent.sequenceEnd, TEvent.phaseStart 0]) := by
  refine ⟨⟨by with_unfolding_all rfl, by with_unfolding_all rfl, by with_unfolding_all rfl,
    by with_unfolding_all rfl, by with_unfolding_all rfl, by with_unfolding_all rfl,
    by with_unfolding_all rfl, by with_unfolding_all rfl⟩, ?_⟩
  have h := (sequence_end_loop_or_idle c2T 250 c2Ph c2Step (by with_unfolding_all rfl)
      (by with_unfolding_all rfl) (by with_unfolding_all rfl) (by with_unfolding_all rfl)
      (by with_unfolding_all rfl)).1 (by with_unfolding_all rfl) c2Inst
      (by with_unfolding_all rfl) (by with_unfolding_all rfl)
  exact ⟨h.2.1, h.2.2.2.1, h.2.2.1, h.2.2.2.2⟩

/-! ## C5 : unknown phase names -/

/-- C5 (amended): an unknown phase-type name raises the configuration error
`Unknown phase: ...` synchronously when that step's phase is built — which,
because phases are built lazily, is `play()` for index 0 (the error leaves
the Sequencer in IDLE with no constructed phases and cursor 0) and, for a
later index, the tick in which the preceding phase completes (the tick
surfaces the error after phase-end, emits no phase-start, does not skip to a
later step, and schedules no further frame).  The step is never silently
skipped, but nothing is raised at `setSequence` time for indexes past 0 —
see the counterexample. -/
theorem unknown_phase_raises_at_build (t : Timeline) :
    (∀ step0, t.tstate = .IDLE → t.stepConfigs.get? 0 = some step0 →
      t.stepConfigs.length ≠ 0 →
      PHASE_REGISTRY (resolvePhaseType t.rand step0) = none →
      (t.play).2 = some ("Unknown phase: " ++ resolvePhaseType t.rand step0) ∧
      (t.play).1.tstate = .IDLE ∧
      (t.play).1.phases = [] ∧
      (t.play).1.currentIndex = 0 ∧
      (t.play).1.events = t.events) ∧
    (∀ (ts : ℚ) (ph : PhaseInstance) (stepNext : Step),
      t.tstate = .PLAYING → t.maxFps = none →
      arrGet t.phases t.currentIndex = some ph →
      (ph.updateFn (tickDt ts t.lastTimestamp) ph.cur).2 = true →
      t.currentIndex + 1 < t.stepConfigs.length →
      t.stepConfigs.get? (t.currentIndex + 1) = some stepNext →
      PHASE_REGISTRY (resolvePhaseType t.rand stepNext) = none →
      (t.tick ts).2 = some ("Unknown phase: " ++ resolvePhaseType t.rand stepNext) ∧
      (t.tick ts).1.rafScheduled = false ∧
      (t.tick ts).1.currentIndex = t.currentIndex + 1 ∧
      (t.tick ts).1.tstate = .PLAYING ∧
      (t.tick ts).1.events = t.events ++ [TEvent.phaseEnd t.currentIndex]) := by
  constructor
  · intro step0 hidle hstep0 hlen hreg
    have hstep0' : t.stepConfigs[0]? = some step0 := by
      rw [← List.get?_eq_getElem?]
      exact hstep0
    unfold Timeline.play
    simp only [hidle]
    unfold Timeline.buildPhase
    unfold createPhase
    simp [hlen, hstep0', hreg]
  · intro ts ph stepNext hplay hnofps hph hdone hlt hnext hreg
    have hnext' : t.stepConfigs[t.currentIndex + 1]? = some stepNext := by
      rw [← List.get?_eq_getElem?]
      exact hnext
    have hnge : ¬ (t.stepConfigs.length ≤ t.currentIndex + 1) := not_le.mpr hlt
    unfold Timeline.tick
    simp only [hplay]
    unfold tickSkips
    unfold Timeline.buildPhase
    unfold createPhase
    simp [hnofps, hph, hdone, hnge, hnext', hreg]

/-- A valid first step for the C5 counterexample. -/
def c5Pause : Step := { phase := some "pause", text := some "Y", duration := some 100 }

/-- A step whose phase-type name is not in the registry. -/
def c5Bogus : Step := { phase := some "bogus", duration := some 50 }

/-- `setSequence([pause, bogus]); play()` — both return without error. -/
def c5Played : Timeline × Option String :=
  (scenAInit.setSequence [c5Pause, c5Bogus]).play

/-- The same Timeline after one executed frame at timestamp 50. -/
def c5T : Timeline := ((c5Played.1.tick 50).1)

/-- C5 counterexample: a sequence with an unknown phase name at index 1
passes `setSequence` and `play()` without any error (the Sequencer starts
PLAYING), and the configuration error surfaces only later, inside the frame
callback in which the pause completes — refuting "raised synchronously at
sequence-build time ... at any index". -/
theorem unknown_phase_lazy_cex :
    c5Played.2 = none ∧
    c5Played.1.tstate = .PLAYING ∧
    (c5T.tick 500).2 = some "Unknown phase: bogus" := by
  refine ⟨by with_unfolding_all rfl, by with_unfolding_all rfl, by with_unfolding_all rfl⟩

/-- A sequence whose very first step is unknown. -/
def c5BadT : Timeline := scenAInit.setSequence [c5Bogus]

/-- The stored pause phase of `c5T`. -/
def c5Ph : PhaseInstance := (arrGet c5T.phases c5T.currentIndex).getD fallbackPhase

/-- Witness for C5: the unknown-at-index-0 sequence errors at `play()` and
stays IDLE; the unknown-at-index-1 sequence errors mid-tick with no
phase-start and no further frame. -/
theorem unknown_phase_raises_w :
    (c5BadT.tstate = .IDLE ∧ c5BadT.stepConfigs.get? 0 = some c5Bogus ∧
     PHASE_REGISTRY (resolvePhaseType c5BadT.rand c5Bogus) = none ∧
     (c5BadT.play).2 = some ("Unknown phase: " ++ resolvePhaseType c5BadT.rand c5Bogus) ∧
     (c5BadT.play).1.tstate = .IDLE) ∧
    ((c5T.tick 500).1.rafScheduled = false ∧
     (c5T.tick 500).1.events = c5T.events ++ [TEvent.phaseEnd c5T.currentIndex]) := by
  constructor
  · have h := (unknown_phase_raises_at_build c5BadT).1 c5Bogus (by with_unfolding_all rfl)
      (by with_unfolding_all rfl) (by with_unfolding_all decide) (by with_unfolding_all rfl)
    exact ⟨by with_unfolding_all rfl, by with_unfolding_all rfl, by with_unfolding_all rfl,
      h.1, h.2.1⟩
  · have h := (unknown_phase_raises_at_build c5T).2 500 c5Ph c5Bogus
      (by with_unfolding_all rfl) (by with_unfolding_all rfl) (by with_unfolding_all rfl)
      (by with_unfolding_all rfl) (by with_unfolding_all decide) (by with_unfolding_all rfl)
      (by with_unfolding_all rfl)
    exact ⟨h.2.1, h.2.2.2.2⟩

/-! ## `renderer.js` : the flip-tile cascade (C3)

The renderer's flip-cascade state: the currently visible dot buffer and
colors, the per-dot wear counters (`_flipCounts`), and the pending flip
queue.  Dots are indexed `row * gridCols + col`. -/

/-- One queued flip (`{ idx, targetOn, targetColor, time }`). -/
structure FlipEvent where
  idx : ℕ
  targetOn : Bool
  targetColor : Option String
  time : ℚ
deriving DecidableEq

/-- The mutable flip-cascade state of the renderer. -/
structure FlipState where
  visibleDots : List Bool
  visibleColors : List (Option String)
  counts : List ℕ
  queue : List FlipEvent
deriving DecidableEq

/-- One iteration of the `for (const item of this._flipQueue)` loop of
`_processFlipQueue`: a due event is applied (incrementing the wear counter
exactly when the visible on/off state differs from the event's target) and
a non-due event is kept in `remaining`. -/
def processApply (now : ℚ)
    (acc : List Bool × List (Option String) × List ℕ × List FlipEvent)
    (item : FlipEvent) : List Bool × List (Option String) × List ℕ × List FlipEvent :=
  let (vd, vc, cnt, rem) := acc
  if now ≥ item.time then
    let cnt :=
      if vd.getD item.idx false ≠ item.targetOn then
        cnt.set item.idx (cnt.getD item.idx 0 + 1)
      else cnt
    (vd.set item.idx item.targetOn, vc.set item.idx item.targetColor, cnt, rem)
  else (vd, vc, cnt, rem ++ [item])

/-- `_processFlipQueue(now)` from `renderer.js`. -/
def processFlipQueue (now : ℚ) (fs : FlipState) : FlipState :=
  let r := fs.queue.foldl (processApply now) (fs.visibleDots, fs.visibleColors, fs.counts, [])
  ⟨r.1, r.2.1, r.2.2.1, r.2.2.2⟩

/-- The change test of `_flipApply`: the dot's target on/off differs from
the visible one, or the dot is on with a different color. -/
def changedAt (fs : FlipState) (dots : List Bool) (dotColors : List (Option String))
    (i : ℕ) : Bool :=
  decide (dots.getD i false ≠ fs.visibleDots.getD i false) ||
    (dots.getD i false && decide (fs.visibleColors.getD i none ≠ dotColors.getD i none))

/-- The changed columns, ascending: the JS builds a `Set` in insertion
order and then sorts ascending, which coincides with filtering the
ascending `List.range gridCols`. -/
def changedCols (gridRows gridCols : ℕ) (fs : FlipState) (dots : List Bool)
    (dotColors : List (Option String)) : List ℕ :=
  (List.range gridCols).filter fun col =>
    (List.range (gridRows * gridCols)).any fun i =>
      i % gridCols == col && changedAt fs dots dotColors i

/-- `_flipApply` from `renderer.js` (without the DOM-painting tail): queue
every dot of each changed column at that column's cascade delay
`ci * flipSpeed`, then drain the due events.  `flipSpeed` is the caller's
`this.options.flipSpeed || 30`. -/
def flipApply (gridRows gridCols : ℕ) (flipSpeed now : ℚ) (dots : List Bool)
    (dotColors : List (Option String)) (fs : FlipState) : FlipState :=
  let sortedCols := changedCols gridRows gridCols fs dots dotColors
  let newEvents := sortedCols.enum.flatMap fun p =>
    (List.range gridRows).map fun r =>
      { idx := r * gridCols + p.2
        targetOn := dots.getD (r * gridCols + p.2) false
        targetColor := dotColors.getD (r * gridCols + p.2) none
        time := now + (p.1 : ℚ) * flipSpeed }
  processFlipQueue now { fs with queue := fs.queue ++ newEvents }

/-- The targets of the events due at `now` for dot `i`, in queue order. -/
def dueTargets (now : ℚ) (i : ℕ) (queue : List FlipEvent) : List Bool :=
  (queue.filter fun ev => decide (now ≥ ev.time) && ev.idx == i).map (·.targetOn)

/-- How many times a value actually changes along a sequence of writes. -/
def transitions : Bool → List Bool → ℕ
  | _, [] => 0
  | c, t :: ts => (if t ≠ c then 1 else 0) + transitions t ts

lemma getD_set_self' {α : Type} (l : List α) (i : ℕ) (a d : α) (h : i < l.length) :
    (l.set i a).getD i d = a := by
  simp [List.getD_eq_getElem?_getD, List.getElem?_set_self h]

lemma getD_set_ne' {α : Type} (l : List α) {i j : ℕ} (h : j ≠ i) (a d : α) :
    (l.set j a).getD i d = l.getD i d := by
  simp [List.getD_eq_getElem?_getD, List.getElem?_set_ne h]

lemma dueTargets_cons_due (now : ℚ) (i : ℕ) (ev : FlipEvent) (rest : List FlipEvent)
    (hdue : now ≥ ev.time) (hidx : ev.idx = i) :
    dueTargets now i (ev :: rest) = ev.targetOn :: dueTargets now i rest := by
  simp [dueTargets, List.filter_cons, hdue, hidx]

lemma dueTargets_cons_skip (now : ℚ) (i : ℕ) (ev : FlipEvent) (rest : List FlipEvent)
    (h : ¬ (now ≥ ev.time) ∨ ev.idx ≠ i) :
    dueTargets now i (ev :: rest) = dueTargets now i rest := by
  rcases h with h | h
  · simp [dueTargets, List.filter_cons, h]
  · have hb : (ev.idx == i) = false := beq_eq_false_iff_ne.mpr h
    simp [dueTargets, List.filter_cons, hb]

lemma processGo_counts (now : ℚ) :
    ∀ (queue : List FlipEvent) (vd : List Bool) (vc : List (Option String))
      (cnt : List ℕ) (rem : List FlipEvent) (i : ℕ),
      i < cnt.length → i < vd.length →
      ((queue.foldl (processApply now) (vd, vc, cnt, rem)).2.2.1).getD i 0 =
        cnt.getD i 0 + transitions (vd.getD i false) (dueTargets now i queue) := by
  intro queue
  induction queue with
  | nil =>
    intro vd vc cnt rem i hc hv
    simp [dueTargets, transitions]
  | cons ev rest ih =>
    intro vd vc cnt rem i hc hv
    rw [List.foldl_cons]
    by_cases hdue : now ≥ ev.time
    · by_cases hidx : ev.idx = i
      · subst hidx
        rw [dueTargets_cons_due now ev.idx ev rest hdue rfl]
        by_cases hne : vd.getD ev.idx false ≠ ev.targetOn
        · have hne2 : ¬ (vd[ev.idx]?.getD false = ev.targetOn) := by
            rw [← List.getD_eq_getElem?_getD]
            exact hne
          have hstep : processApply now (vd, vc, cnt, rem) ev =
            (vd.set ev.idx ev.targetOn, vc.set ev.idx ev.targetColor,
             cnt.set ev.idx (cnt.getD ev.idx 0 + 1), rem) := by
            simp [processApply, hdue, hne2, List.getD_eq_getElem?_getD]
          rw [hstep]
          rw [ih (vd.set ev.idx ev.targetOn) _ _ rem ev.idx
            (by simpa using hc) (by simpa using hv)]
          rw [getD_set_self' cnt ev.idx _ 0 hc, getD_set_self' vd ev.idx _ false hv]
          rw [transitions, if_pos (Ne.symm hne)]
          omega
        · push_neg at hne
          have hne2 : vd[ev.idx]?.getD false = ev.targetOn := by
            rw [← List.getD_eq_getElem?_getD]
            exact hne
          have hstep : processApply now (vd, vc, cnt, rem) ev =
            (vd.set ev.idx ev.targetOn, vc.set ev.idx ev.targetColor, cnt, rem) := by
            simp [processApply, hdue, hne2, List.getD_eq_getElem?_getD]
          rw [hstep]
          rw [ih (vd.set ev.idx ev.targetOn) _ _ rem ev.idx
            (by simpa using hc) (by simpa using hv)]
          rw [getD_set_self' vd ev.idx _ false hv]
          rw [transitions, hne]
          simp
      · rw [dueTargets_cons_skip now i ev rest (Or.inr hidx)]
        by_cases hne : vd.getD ev.idx false ≠ ev.targetOn
        · have hne2 : ¬ (vd[ev.idx]?.getD false = ev.targetOn) := by
            rw [← List.getD_eq_getElem?_getD]
            exact hne
          have hstep : processApply now (vd, vc, cnt, rem) ev =
            (vd.set ev.idx ev.targetOn, vc.set ev.idx ev.targetColor,
             cnt.set ev.idx (cnt.getD ev.idx 0 + 1), rem) := by
            simp [processApply, hdue, hne2, List.getD_eq_getElem?_getD]
          rw [hstep]
          rw [ih (vd.set ev.idx ev.targetOn) _ _ rem i
            (by simpa using hc) (by simpa using hv)]
          rw [getD_set_ne' cnt hidx _ 0, getD_set_ne' vd hidx _ false]
        · push_neg at hne
          have hne2 : vd[ev.idx]?.getD false = ev.targetOn := by
            rw [← List.getD_eq_getElem?_getD]
            exact hne
          have hstep : processApply now (vd, vc, cnt, rem) ev =
            (vd.set ev.idx ev.targetOn, vc.set ev.idx ev.targetColor, cnt, rem) := by
            simp [processApply, hdue, hne2, List.getD_eq_getElem?_getD]
          rw [hstep]
          rw [ih (vd.set ev.idx ev.targetOn) _ _ rem i
            (by simpa using hc) (by simpa using hv)]
          rw [getD_set_ne' vd hidx _ false]
    · rw [dueTargets_cons_skip now i ev rest (Or.inl hdue)]
      have hstep : processApply now (vd, vc, cnt, rem) ev =
          (vd, vc, cnt, rem ++ [ev]) := by
        simp [processApply, hdue]
      rw [hstep]
      exact ih vd vc cnt (rem ++ [ev]) i hc hv

/-- C3 (amended): draining the flip queue raises a dot's wear counter by
exactly the number of applied events that actually change its visible
on/off state — color-only changes are applied (the visible color updates)
without incrementing, contrary to the claim's "or its color" (see the
counterexample) — and re-rendering a target buffer identical to the visible
buffer through `_flipApply` (with a quiescent queue) changes nothing at
all: no event is queued and every wear counter stays put. -/
theorem flip_wear_counts :
    (∀ (fs : FlipState) (now : ℚ) (i : ℕ),
      i < fs.counts.length → i < fs.visibleDots.length →
      (processFlipQueue now fs).counts.getD i 0 =
        fs.counts.getD i 0 +
          transitions (fs.visibleDots.getD i false) (dueTargets now i fs.queue)) ∧
    (∀ (gridRows gridCols : ℕ) (flipSpeed now : ℚ) (fs : FlipState),
      fs.queue = [] →
      flipApply gridRows gridCols flipSpeed now fs.visibleDots fs.visibleColors fs = fs) := by
  constructor
  · intro fs now i hc hv
    unfold processFlipQueue
    exact processGo_counts now fs.queue fs.visibleDots fs.visibleColors fs.counts [] i hc hv
  · intro gridRows gridCols flipSpeed now fs hq
    obtain ⟨vd, vc, cnt, q⟩ := fs
    simp only at hq
    subst hq
    have hchg : ∀ i, changedAt ⟨vd, vc, cnt, []⟩ vd vc i = false := by
      intro i
      unfold changedAt
      simp
    have hcols : changedCols gridRows gridCols ⟨vd, vc, cnt, []⟩ vd vc = [] := by
      unfold changedCols
      simp [hchg]
    simp [flipApply, hcols, processFlipQueue]

/-- A one-dot visible buffer: dot on, color `a`, wear 0, empty queue. -/
def c3ColorFs : FlipState := ⟨[true], [some "a"], [0], []⟩

/-- C3 counterexample: a color-only change (`a` → `b` with the dot staying
on) flows through the flip queue and is applied — the visible color becomes
`b` — yet the wear counter stays 0, refuting "increases by exactly 1 each
time its visible on/off state *or its color* actually changes". -/
theorem flip_wear_color_only_cex :
    (flipApply 1 1 30 0 [true] [some "b"] c3ColorFs).visibleColors = [some "b"] ∧
    (flipApply 1 1 30 0 [true] [some "b"] c3ColorFs).visibleDots = [true] ∧
    (flipApply 1 1 30 0 [true] [some "b"] c3ColorFs).queue = [] ∧
    (flipApply 1 1 30 0 [true] [some "b"] c3ColorFs).counts = [0] ∧
    c3ColorFs.counts = [0] := by
  refine ⟨by with_unfolding_all rfl, by with_unfolding_all rfl, by with_unfolding_all rfl,
    by with_unfolding_all rfl, rfl⟩

/-- A one-dot state with a due off→on flip queued. -/
def c3OnOffFs : FlipState := ⟨[false], [none], [0], [⟨0, true, some "x", 5⟩]⟩

/-- Witness for C3: the due off→on flip increments the wear counter to 1,
and an identical re-render leaves the color-state untouched. -/
theorem flip_wear_counts_w :
    (0 : ℕ) < c3OnOffFs.counts.length ∧ (0 : ℕ) < c3OnOffFs.visibleDots.length ∧
    (processFlipQueue 10 c3OnOffFs).counts.getD 0 0 =
      c3OnOffFs.counts.getD 0 0 +
        transitions (c3OnOffFs.visibleDots.getD 0 false) (dueTargets 10 0 c3OnOffFs.queue) ∧
    (processFlipQueue 10 c3OnOffFs).counts = [1] ∧
    (c3ColorFs.queue = [] ∧
      flipApply 2 3 30 7 c3ColorFs.visibleDots c3ColorFs.visibleColors c3ColorFs = c3ColorFs) :=
  ⟨by decide, by decide,
   flip_wear_counts.1 c3OnOffFs 10 0 (by decide) (by decide),
   by with_unfolding_all rfl,
   rfl, flip_wear_counts.2 2 3 30 7 c3ColorFs rfl⟩

/-- Scroll updates commute with splitting the delta: the update body is a
pure function of the accumulated `elapsed`, and the fields it writes are
overwritten on every call. -/
lemma scrollUpdateFn_additive (e : ℚ → ℚ) (sx tx tt : ℚ) (c : ColorConfig)
    (pcs : List String) (a b : ℚ) (loc : PhaseLocal) :
    scrollUpdateFn e sx tx tt c pcs b (scrollUpdateFn e sx tx tt c pcs a loc).1 =
      scrollUpdateFn e sx tx tt c pcs (a + b) loc := by
  unfold scrollUpdateFn
  simp [add_assoc]

/-- Fade updates commute with splitting the delta, for the same reason as
scroll. -/
lemma fadeUpdateFn_additive (e : ℚ → ℚ) (d so eo : ℚ) (c : ColorConfig)
    (pcs : List String) (a b : ℚ) (loc : PhaseLocal) :
    fadeUpdateFn e d so eo c pcs b (fadeUpdateFn e d so eo c pcs a loc).1 =
      fadeUpdateFn e d so eo c pcs (a + b) loc := by
  unfold fadeUpdateFn
  simp [add_assoc]

/-- Flash updates commute with splitting the delta when the interval is
positive and the second delta is nonnegative: the toggle counter is a
running maximum of `⌊elapsed / interval⌋`, which is monotone in `elapsed`,
so applying the maximum in two steps agrees with applying it once. -/
lemma flashUpdateFn_additive (I : ℚ) (tot : ℤ) (c : ColorConfig) (pcs : List String)
    (a b : ℚ) (loc : PhaseLocal) (hI : 0 < I) (hb : 0 ≤ b) :
    flashUpdateFn I tot c pcs b (flashUpdateFn I tot c pcs a loc).1 =
      flashUpdateFn I tot c pcs (a + b) loc := by
  have hmono : (⌊(loc.elapsed + a) / I⌋ : ℤ) ≤ ⌊(loc.elapsed + a + b) / I⌋ := by
    apply Int.floor_le_floor
    have hle : loc.elapsed + a ≤ loc.elapsed + a + b := by linarith
    exact (div_le_div_iff_of_pos_right hI).mpr hle
  unfold flashUpdateFn
  simp only [← add_assoc]
  by_cases h1 : ⌊(loc.elapsed + a) / I⌋ > loc.toggleCount
  · by_cases h2 : ⌊(loc.elapsed + a + b) / I⌋ > ⌊(loc.elapsed + a) / I⌋
    · have h3 : ⌊(loc.elapsed + a + b) / I⌋ > loc.toggleCount := lt_trans h1 h2
      simp [h1, h2, h3]
    · have h22 : ⌊(loc.elapsed + a + b) / I⌋ = ⌊(loc.elapsed + a) / I⌋ :=
        le_antisymm (not_lt.mp h2) hmono
      simp [h1, h2, h22]
  · by_cases h2 : ⌊(loc.elapsed + a + b) / I⌋ > loc.toggleCount
    · simp [h1, h2]
    · simp [h1, h2]

/-- A color spec that is a constant string, an array, or absent - i.e.
anything but the function form. -/
def ColorConfig.nonFunction : ColorConfig → Bool
  | .fn _ => false
  | _ => true

/-- **C10**: for scroll, flash and fade phase instances whose color spec is
a constant or an array (not a function), `update(a)` followed by
`update(b)` produces exactly the same local state and the same completion
flag as the single call `update(a + b)` - the observable state depends only
on the accumulated elapsed time.  Scroll and fade are additive for all
deltas; flash is additive for a positive resolved interval and a
nonnegative second delta (deltas are positive in the claim). -/
theorem phase_update_additivity :
    (∀ (dir : String) (step : Step) (cw tw : ℚ) (prev : Option RenderState)
        (pcs : List String) (a b : ℚ) (loc : PhaseLocal),
        step.color.nonFunction = true →
        (createScrollPhase dir step cw tw prev pcs).updateFn b
            ((createScrollPhase dir step cw tw prev pcs).updateFn a loc).1 =
          (createScrollPhase dir step cw tw prev pcs).updateFn (a + b) loc) ∧
    (∀ (step : Step) (cw tw : ℚ) (prev : Option RenderState)
        (pcs : List String) (a b : ℚ) (loc : PhaseLocal),
        step.color.nonFunction = true → 0 < jsOrQ step.interval 300 → 0 ≤ b →
        (createFlashPhase step cw tw prev pcs).updateFn b
            ((createFlashPhase step cw tw prev pcs).updateFn a loc).1 =
          (createFlashPhase step cw tw prev pcs).updateFn (a + b) loc) ∧
    (∀ (dir : String) (step : Step) (cw tw : ℚ) (prev : Option RenderState)
        (pcs : List String) (a b : ℚ) (loc : PhaseLocal),
        step.color.nonFunction = true →
        (createFadePhase dir step cw tw prev pcs).updateFn b
            ((createFadePhase dir step cw tw prev pcs).updateFn a loc).1 =
          (createFadePhase dir step cw tw prev pcs).updateFn (a + b) loc) := by
  refine ⟨?_, ?_, ?_⟩
  · intro dir step cw tw prev pcs a b loc _
    exact scrollUpdateFn_additive _ _ _ _ _ _ a b loc
  · intro step cw tw prev pcs a b loc _ hI hb
    exact flashUpdateFn_additive _ _ _ _ a b loc hI hb
  · intro dir step cw tw prev pcs a b loc _
    exact fadeUpdateFn_additive _ _ _ _ _ _ a b loc

/-- A concrete step with a constant color spec, used to instantiate the
additivity theorem. -/
def c10Step : Step :=
  { phase := some "flash"
    text := some "HI"
    color := .str "#00ff00" }

/-- Witness for the additivity theorem: splitting a 450ms delta as
200 + 250 agrees with the single call on concrete scroll, flash and fade
instances. -/
theorem phase_update_additivity_w :
    ((createScrollPhase "left" c10Step 500 60 none []).updateFn 250
        ((createScrollPhase "left" c10Step 500 60 none []).updateFn 200
          (createScrollPhase "left" c10Step 500 60 none []).cur).1 =
      (createScrollPhase "left" c10Step 500 60 none []).updateFn (200 + 250)
        (createScrollPhase "left" c10Step 500 60 none []).cur) ∧
    ((createFlashPhase c10Step 500 60 none []).updateFn 250
        ((createFlashPhase c10Step 500 60 none []).updateFn 200
          (createFlashPhase c10Step 500 60 none []).cur).1 =
      (createFlashPhase c10Step 500 60 none []).updateFn (200 + 250)
        (createFlashPhase c10Step 500 60 none []).cur) ∧
    ((createFadePhase "in" c10Step 500 60 none []).updateFn 250
        ((createFadePhase "in" c10Step 500 60 none []).updateFn 200
          (createFadePhase "in" c10Step 500 60 none []).cur).1 =
      (createFadePhase "in" c10Step 500 60 none []).updateFn (200 + 250)
        (createFadePhase "in" c10Step 500 60 none []).cur) :=
  ⟨phase_update_additivity.1 "left" c10Step 500 60 none [] 200 250 _
      (by with_unfolding_all decide),
   phase_update_additivity.2.1 c10Step 500 60 none [] 200 250 _
      (by with_unfolding_all decide) (by with_unfolding_all decide)
      (by with_unfolding_all decide),
   phase_update_additivity.2.2 "in" c10Step 500 60 none [] 200 250 _
      (by with_unfolding_all decide)⟩
